import Mathlib

/-!
Verification development for the SLME / Shockley-Queisser efficiency pipeline
implemented in `jarvis/tools/slme.py`.

The Python source is shallowly embedded: floating-point arithmetic is modelled
by real arithmetic, numpy arrays by `List ℝ`, and the module-level scipy
constants by the exact SI values scipy ships (all of which are exact decimal
rationals except `hbar`, which is `h / (2π)`).

The bundled AM1.5G reference-spectrum data file (`am1.5g.dat`) is not part of
the source tree; following the specification it is treated as an external
two-column dataset, so the embedded pipeline functions take the wavelength and
irradiance columns as explicit arguments.  Likewise scipy's cubic-spline
interpolator `interp1d(..., kind='cubic')` is modelled by its documented
out-of-range clamping behaviour around an arbitrary interior interpolant
(passed as an explicit function argument); every theorem below depends only on
the clamping behaviour, never on the interior spline values.
-/

open Real

/-- `c = constants.c`, the speed of light in m/s (scipy ships the exact SI value). -/
noncomputable def cLight : ℝ := 299792458

/-- `h = constants.h`, Planck's constant in J·s (exact SI value). -/
noncomputable def hPlanck : ℝ := 6.62607015e-34

/-- `k = constants.k`, Boltzmann's constant in J/K (exact SI value). -/
noncomputable def kBoltz : ℝ := 1.380649e-23

/-- `e = constants.e`, the elementary charge in C (exact SI value). -/
noncomputable def eCharge : ℝ := 1.602176634e-19

/-- `h_e = constants.h / constants.e`, Planck's constant in eV·s. -/
noncomputable def h_e : ℝ := hPlanck / eCharge

/-- `k_e = constants.k / constants.e`, Boltzmann's constant in eV/K. -/
noncomputable def k_e : ℝ := kBoltz / eCharge

/-- `constants.hbar = h / (2π)`, the reduced Planck constant in J·s. -/
noncomputable def hbarConst : ℝ := hPlanck / (2 * Real.pi)

/-- `voltage_step = 0.001` (V), the fixed step of the power-maximization loop. -/
noncomputable def voltageStep : ℝ := 0.001

/-- The diode current density `J(V) = J_sc - J_0*(np.exp(e*V/(k*temperature)) - 1.0)`
shared verbatim by `slme` and `calculate_SQ`. -/
noncomputable def diodeJ (Jsc J0 temperature V : ℝ) : ℝ :=
  Jsc - J0 * (Real.exp (eCharge * V / (kBoltz * temperature)) - 1.0)

/-- The diode power density `power(V) = J(V) * V` shared by `slme` and `calculate_SQ`. -/
noncomputable def diodePower (Jsc J0 temperature V : ℝ) : ℝ :=
  diodeJ Jsc J0 temperature V * V

/-- The index of the first voltage grid point `n * voltage_step` at which the guard
`power(test_voltage + voltage_step) > power(test_voltage)` of the maximization loop
fails, i.e. the number of steps the `while` loop accepts before it exits.
(`Nat.sInf` of the empty set is `0`; the loop never exits on such inputs, see
`climbLoop` for the fuelled translation of the loop itself.) -/
noncomputable def stopIndex (P : ℝ → ℝ) : ℕ :=
  sInf {n : ℕ | P (((n : ℝ) + 1) * voltageStep) ≤ P ((n : ℝ) * voltageStep)}

open Classical in
/-- Fuelled translation of the maximization loop
`while power(test_voltage + voltage_step) > power(test_voltage): test_voltage += voltage_step`:
starting from voltage `V`, take a `voltage_step` while the strict-increase guard holds,
for at most `fuel` iterations, and return the final `test_voltage`. -/
noncomputable def climbLoop (P : ℝ → ℝ) : ℕ → ℝ → ℝ
  | 0, V => V
  | fuel + 1, V => if P V < P (V + voltageStep) then climbLoop P fuel (V + voltageStep) else V

/-- `max_power = power(test_voltage)` at the voltage where the loop settles. -/
noncomputable def maxPowerOf (P : ℝ → ℝ) : ℝ := P ((stopIndex P : ℝ) * voltageStep)

lemma voltageStep_pos : 0 < voltageStep := by norm_num [voltageStep]

/-- If the guard held at every index below `n`, the powers at the grid points
strictly increase up to `n`. -/
lemma power_chain_lt (P : ℝ → ℝ) (n : ℕ)
    (h : ∀ m < n, P ((m : ℝ) * voltageStep) < P (((m : ℝ) + 1) * voltageStep)) :
    ∀ m < n, P ((m : ℝ) * voltageStep) < P ((n : ℝ) * voltageStep) := by
  induction n with
  | zero => intro m hm; omega
  | succ k ih =>
    intro m hm
    have hk : P ((k : ℝ) * voltageStep) < P (((k : ℝ) + 1) * voltageStep) :=
      h k (Nat.lt_succ_self k)
    rcases Nat.lt_succ_iff_lt_or_eq.mp hm with hmk | hmk
    · exact lt_trans (ih (fun m' hm' => h m' (Nat.lt_succ_of_lt hm')) m hmk)
        (by push_cast; exact hk)
    · subst hmk; push_cast; exact hk

/-- The power at the settling grid point is at least the power at `V = 0`. -/
lemma power_chain_nonneg (P : ℝ → ℝ) (n : ℕ)
    (h : ∀ m < n, P ((m : ℝ) * voltageStep) < P (((m : ℝ) + 1) * voltageStep)) :
    P ((0 : ℝ) * voltageStep) ≤ P ((n : ℝ) * voltageStep) := by
  rcases Nat.eq_zero_or_pos n with hn | hn
  · subst hn; norm_num
  · exact le_of_lt (by simpa using power_chain_lt P n h 0 hn)

/-- The fuelled loop, started at grid point `m` with `m ≤ n`, settles at the first
stopping index `n` whenever it is given more than `n - m` units of fuel. -/
lemma climbLoop_settles (P : ℝ → ℝ) (n : ℕ)
    (hlt : ∀ m < n, P ((m : ℝ) * voltageStep) < P (((m : ℝ) + 1) * voltageStep))
    (hstop : P (((n : ℝ) + 1) * voltageStep) ≤ P ((n : ℝ) * voltageStep)) :
    ∀ fuel m, m ≤ n → n < m + fuel →
      climbLoop P fuel ((m : ℝ) * voltageStep) = (n : ℝ) * voltageStep := by
  intro fuel
  induction fuel with
  | zero => intro m hmn hfuel; omega
  | succ f ih =>
    intro m hmn hfuel
    have hstep : (m : ℝ) * voltageStep + voltageStep = ((m : ℝ) + 1) * voltageStep := by ring
    rcases eq_or_lt_of_le hmn with hme | hml
    · subst hme
      have hguard : ¬ P ((m : ℝ) * voltageStep) < P ((m : ℝ) * voltageStep + voltageStep) := by
        rw [hstep]; exact not_lt.mpr hstop
      simp only [climbLoop, if_neg hguard]
    · have hguard : P ((m : ℝ) * voltageStep) < P ((m : ℝ) * voltageStep + voltageStep) := by
        rw [hstep]; exact hlt m hml
      have := ih (m + 1) hml (by omega)
      simp only [climbLoop, if_pos hguard]
      rw [hstep]
      simpa [Nat.cast_add, Nat.cast_one] using this

/-- If the guard holds at every grid point, the loop consumes all of its fuel:
the translation of the fact that the source's unguarded `while` loop never exits. -/
lemma climbLoop_exhausts (P : ℝ → ℝ)
    (h : ∀ m : ℕ, P ((m : ℝ) * voltageStep) < P (((m : ℝ) + 1) * voltageStep)) :
    ∀ fuel m : ℕ, climbLoop P fuel ((m : ℝ) * voltageStep) = ((m : ℝ) + fuel) * voltageStep := by
  intro fuel
  induction fuel with
  | zero => intro m; simp [climbLoop]
  | succ f ih =>
    intro m
    have hstep : (m : ℝ) * voltageStep + voltageStep = ((m : ℝ) + 1) * voltageStep := by ring
    have hguard : P ((m : ℝ) * voltageStep) < P ((m : ℝ) * voltageStep + voltageStep) := by
      rw [hstep]; exact h m
    simp only [climbLoop, if_pos hguard]
    rw [hstep]
    have := ih (m + 1)
    push_cast at this ⊢
    rw [this]; ring

/-- The effective exponent rate `e/(k*T)` of the diode equation. -/
noncomputable def diodeRate (temperature : ℝ) : ℝ := eCharge / (kBoltz * temperature)

lemma diodeRate_pos {temperature : ℝ} (hT : 0 < temperature) : 0 < diodeRate temperature := by
  have h1 : (0 : ℝ) < eCharge := by norm_num [eCharge]
  have h2 : (0 : ℝ) < kBoltz := by norm_num [kBoltz]
  exact div_pos h1 (mul_pos h2 hT)

lemma diodePower_eq_rate (Jsc J0 temperature V : ℝ) :
    diodePower Jsc J0 temperature V
      = (Jsc - J0 * (Real.exp (diodeRate temperature * V) - 1)) * V := by
  have : eCharge * V / (kBoltz * temperature) = diodeRate temperature * V := by
    unfold diodeRate; ring
  simp only [diodePower, diodeJ, this]
  norm_num

lemma diodePower_hasDerivAt (Jsc J0 temperature V : ℝ) :
    HasDerivAt (diodePower Jsc J0 temperature)
      ((Jsc + J0) - J0 * (1 + diodeRate temperature * V)
        * Real.exp (diodeRate temperature * V)) V := by
  have hfun : diodePower Jsc J0 temperature
      = fun W => (Jsc - J0 * (Real.exp (diodeRate temperature * W) - 1)) * W := by
    funext W; exact diodePower_eq_rate Jsc J0 temperature W
  rw [hfun]
  have harg : HasDerivAt (fun W : ℝ => diodeRate temperature * W) (diodeRate temperature) V := by
    simpa using (hasDerivAt_id V).const_mul (diodeRate temperature)
  have hexp : HasDerivAt (fun W : ℝ => Real.exp (diodeRate temperature * W))
      (Real.exp (diodeRate temperature * V) * diodeRate temperature) V := harg.exp
  have hcur : HasDerivAt (fun W : ℝ => Jsc - J0 * (Real.exp (diodeRate temperature * W) - 1))
      (-(J0 * (Real.exp (diodeRate temperature * V) * diodeRate temperature))) V :=
    (((hexp).sub_const 1).const_mul J0).const_sub Jsc
  have := hcur.mul (hasDerivAt_id V)
  convert this using 1
  simp only [id_eq]
  ring

/-- `(1+x)·exp x` is strictly increasing on `x ≥ 0`. -/
lemma one_add_mul_exp_strict {x y : ℝ} (hx : 0 ≤ x) (hxy : x < y) :
    (1 + x) * Real.exp x < (1 + y) * Real.exp y := by
  have h1 : (1 : ℝ) + x < 1 + y := by linarith
  have h2 : Real.exp x < Real.exp y := Real.exp_lt_exp.mpr hxy
  have h3 : (0 : ℝ) < 1 + x := by linarith
  calc (1 + x) * Real.exp x < (1 + y) * Real.exp x :=
        (mul_lt_mul_right (Real.exp_pos x)).mpr h1
    _ < (1 + y) * Real.exp y := (mul_lt_mul_left (by linarith)).mpr h2

lemma diodePower_continuous (Jsc J0 temperature : ℝ) :
    Continuous (diodePower Jsc J0 temperature) := by
  unfold diodePower diodeJ
  fun_prop

/-- Strict monotonicity of the diode power on `[0, V1]`, granted the bound
`(1 + r·V1)·exp(r·V1) ≤ 1 + J_sc/J_0` with `r = e/(kT)`. -/
lemma diode_strictMonoOn (Jsc J0 temperature V1 : ℝ) (hT : 0 < temperature)
    (hJ0 : 0 < J0) (hV1 : 0 ≤ V1)
    (hbound : (1 + diodeRate temperature * V1) * Real.exp (diodeRate temperature * V1)
      ≤ 1 + Jsc / J0) :
    StrictMonoOn (diodePower Jsc J0 temperature) (Set.Icc 0 V1) := by
  apply strictMonoOn_of_deriv_pos (convex_Icc 0 V1)
    (diodePower_continuous Jsc J0 temperature).continuousOn
  intro x hx
  rw [interior_Icc] at hx
  rw [(diodePower_hasDerivAt Jsc J0 temperature x).deriv]
  have hr := diodeRate_pos hT
  have hgx : (1 + diodeRate temperature * x) * Real.exp (diodeRate temperature * x)
      < 1 + Jsc / J0 := by
    refine lt_of_lt_of_le ?_ hbound
    exact one_add_mul_exp_strict (mul_nonneg hr.le hx.1.le)
      ((mul_lt_mul_left hr).mpr hx.2)
  have hkey : J0 * ((1 + diodeRate temperature * x) * Real.exp (diodeRate temperature * x))
      < J0 * (1 + Jsc / J0) := (mul_lt_mul_left hJ0).mpr hgx
  have hJ0' : J0 * (1 + Jsc / J0) = J0 + Jsc := by field_simp
  nlinarith [hkey]

/-- Strict antitonicity of the diode power on `[V2, ∞)`, granted the bound
`1 + J_sc/J_0 ≤ (1 + r·V2)·exp(r·V2)` with `r = e/(kT)`. -/
lemma diode_strictAntiOn (Jsc J0 temperature V2 : ℝ) (hT : 0 < temperature)
    (hJ0 : 0 < J0) (hV2 : 0 ≤ V2)
    (hbound : 1 + Jsc / J0
      ≤ (1 + diodeRate temperature * V2) * Real.exp (diodeRate temperature * V2)) :
    StrictAntiOn (diodePower Jsc J0 temperature) (Set.Ici V2) := by
  apply strictAntiOn_of_deriv_neg (convex_Ici V2)
    (diodePower_continuous Jsc J0 temperature).continuousOn
  intro x hx
  rw [interior_Ici] at hx
  rw [(diodePower_hasDerivAt Jsc J0 temperature x).deriv]
  have hr := diodeRate_pos hT
  have hgx : 1 + Jsc / J0
      < (1 + diodeRate temperature * x) * Real.exp (diodeRate temperature * x) := by
    refine lt_of_le_of_lt hbound ?_
    exact one_add_mul_exp_strict (mul_nonneg hr.le hV2) ((mul_lt_mul_left hr).mpr hx)
  have hkey : J0 * (1 + Jsc / J0)
      < J0 * ((1 + diodeRate temperature * x) * Real.exp (diodeRate temperature * x)) :=
    (mul_lt_mul_left hJ0).mpr hgx
  have hJ0' : J0 * (1 + Jsc / J0) = J0 + Jsc := by field_simp
  nlinarith [hkey]

/-- When some grid step fails the strict-increase guard, `stopIndex` is the first such
index: the guard fails there, and every earlier step passed it. -/
lemma stopIndex_spec (P : ℝ → ℝ)
    (hne : ∃ n : ℕ, P (((n : ℝ) + 1) * voltageStep) ≤ P ((n : ℝ) * voltageStep)) :
    P (((stopIndex P : ℝ) + 1) * voltageStep) ≤ P ((stopIndex P : ℝ) * voltageStep) ∧
      ∀ m < stopIndex P, P ((m : ℝ) * voltageStep) < P (((m : ℝ) + 1) * voltageStep) := by
  constructor
  · exact Nat.sInf_mem hne
  · intro m hm
    exact not_le.mp (Nat.not_mem_of_lt_sInf hm)

/-- For a power curve that strictly decreases on `[Vm, ∞)`, the guard fails at the first
grid point at or beyond `Vm`, so the loop settles. -/
lemma stop_exists_of_unimodal (P : ℝ → ℝ) (Vm : ℝ)
    (hanti : StrictAntiOn P (Set.Ici Vm)) :
    P (((Nat.ceil (Vm / voltageStep) : ℝ) + 1) * voltageStep)
      ≤ P ((Nat.ceil (Vm / voltageStep) : ℝ) * voltageStep) := by
  have hs := voltageStep_pos
  have h0 : Vm ≤ (Nat.ceil (Vm / voltageStep) : ℝ) * voltageStep := by
    rw [← div_le_iff₀ hs]
    exact Nat.le_ceil (Vm / voltageStep)
  have h1 : ((Nat.ceil (Vm / voltageStep) : ℝ)) * voltageStep
      < ((Nat.ceil (Vm / voltageStep) : ℝ) + 1) * voltageStep := by nlinarith
  exact le_of_lt
    (hanti (Set.mem_Ici.mpr h0) (Set.mem_Ici.mpr (by linarith)) h1)

/-- C1: for parameters that make the diode power curve strictly unimodal on `V ≥ 0`
(strictly increasing up to the analytic maximum-power voltage `Vm`, strictly
decreasing beyond it), the shared maximization loop of `slme` and `calculate_SQ`
passes the guard at every step before `stopIndex` and fails it there — so it stops at
the first voltage `n * 0.001` with `power(V + 0.001) ≤ power(V)` — the fuelled loop
translation indeed settles at that voltage, and that voltage is within one step
(`0.001 V`) of `Vm`. -/
theorem slme_voltage_maximization_unimodal (Jsc J0 temperature Vm : ℝ)
    (hT : 0 < temperature) (hJsc : 0 < Jsc) (hJ0 : 0 < J0) (hVm : 0 ≤ Vm)
    (hmono : StrictMonoOn (diodePower Jsc J0 temperature) (Set.Icc 0 Vm))
    (hanti : StrictAntiOn (diodePower Jsc J0 temperature) (Set.Ici Vm)) :
    (∀ m < stopIndex (diodePower Jsc J0 temperature),
        diodePower Jsc J0 temperature ((m : ℝ) * voltageStep)
          < diodePower Jsc J0 temperature (((m : ℝ) + 1) * voltageStep)) ∧
      diodePower Jsc J0 temperature
          (((stopIndex (diodePower Jsc J0 temperature) : ℝ) + 1) * voltageStep)
        ≤ diodePower Jsc J0 temperature
          ((stopIndex (diodePower Jsc J0 temperature) : ℝ) * voltageStep) ∧
      (∀ fuel, stopIndex (diodePower Jsc J0 temperature) < fuel →
        climbLoop (diodePower Jsc J0 temperature) fuel 0
          = (stopIndex (diodePower Jsc J0 temperature) : ℝ) * voltageStep) ∧
      |(stopIndex (diodePower Jsc J0 temperature) : ℝ) * voltageStep - Vm| ≤ voltageStep := by
  set P := diodePower Jsc J0 temperature with hP
  have hs := voltageStep_pos
  have hceil := stop_exists_of_unimodal P Vm hanti
  have hne : ∃ n : ℕ, P (((n : ℝ) + 1) * voltageStep) ≤ P ((n : ℝ) * voltageStep) :=
    ⟨Nat.ceil (Vm / voltageStep), hceil⟩
  obtain ⟨hstop, hlt⟩ := stopIndex_spec P hne
  refine ⟨hlt, hstop, ?_, ?_⟩
  · intro fuel hfuel
    have := climbLoop_settles P (stopIndex P) hlt hstop fuel 0 (Nat.zero_le _) (by omega)
    simpa using this
  · -- the settling voltage is within one step of the analytic optimum
    have hlow : Vm - voltageStep < (stopIndex P : ℝ) * voltageStep := by
      by_contra hcon
      push_neg at hcon
      -- then ((stopIndex P) + 1) * step ≤ Vm, contradicting the failed guard via hmono
      have h1 : ((stopIndex P : ℝ) + 1) * voltageStep ≤ Vm := by nlinarith
      have h0 : (0 : ℝ) ≤ (stopIndex P : ℝ) * voltageStep := by positivity
      have := hmono (Set.mem_Icc.mpr ⟨h0, by nlinarith⟩)
        (Set.mem_Icc.mpr ⟨by positivity, h1⟩) (by nlinarith)
      exact absurd hstop (not_le.mpr this)
    have hhigh : (stopIndex P : ℝ) * voltageStep < Vm + voltageStep := by
      have hmem : stopIndex P ≤ Nat.ceil (Vm / voltageStep) := Nat.sInf_le hceil
      have hcast : (stopIndex P : ℝ) ≤ (Nat.ceil (Vm / voltageStep) : ℝ) := by
        exact_mod_cast hmem
      have hceil_lt : (Nat.ceil (Vm / voltageStep) : ℝ) < Vm / voltageStep + 1 :=
        Nat.ceil_lt_add_one (by positivity)
      have hdiv : Vm / voltageStep * voltageStep = Vm := div_mul_cancel₀ Vm (ne_of_gt hs)
      nlinarith
    rw [abs_le]
    constructor <;> nlinarith

/-- Witness for C1 at concrete diode parameters `J_sc = 2·exp(1) − 1`, `J_0 = 1` and
`T = e/k` (which makes the exponent rate `e/(kT)` equal to `1`): the power curve is
strictly unimodal with its analytic maximum exactly at `Vm = 1` V, and the loop settles
within one step of it. -/
theorem slme_voltage_maximization_unimodal_witness :
    0 < eCharge / kBoltz ∧ 0 < 2 * Real.exp 1 - 1 ∧
      |(stopIndex (diodePower (2 * Real.exp 1 - 1) 1 (eCharge / kBoltz)) : ℝ) * voltageStep - 1|
        ≤ voltageStep := by
  have hT : (0 : ℝ) < eCharge / kBoltz := by norm_num [eCharge, kBoltz]
  have he : (2.7182818283 : ℝ) < Real.exp 1 := Real.exp_one_gt_d9
  have hJsc : (0 : ℝ) < 2 * Real.exp 1 - 1 := by nlinarith
  have hrate : diodeRate (eCharge / kBoltz) = 1 := by
    have h1 : eCharge ≠ 0 := by norm_num [eCharge]
    have h2 : kBoltz ≠ 0 := by norm_num [kBoltz]
    field_simp [diodeRate]
  have hbound : (1 + diodeRate (eCharge / kBoltz) * 1)
      * Real.exp (diodeRate (eCharge / kBoltz) * 1) = 1 + (2 * Real.exp 1 - 1) / 1 := by
    rw [hrate]; norm_num
  have hmono := diode_strictMonoOn (2 * Real.exp 1 - 1) 1 (eCharge / kBoltz) 1
    hT one_pos zero_le_one (le_of_eq hbound)
  have hanti := diode_strictAntiOn (2 * Real.exp 1 - 1) 1 (eCharge / kBoltz) 1
    hT one_pos zero_le_one (ge_of_eq hbound)
  exact ⟨hT, hJsc,
    (slme_voltage_maximization_unimodal (2 * Real.exp 1 - 1) 1 (eCharge / kBoltz) 1
      hT hJsc one_pos zero_le_one hmono hanti).2.2.2⟩

lemma diodePower_negJ0_eq (temperature V : ℝ) :
    diodePower 1 (-1) temperature V = Real.exp (diodeRate temperature * V) * V := by
  rw [diodePower_eq_rate]; ring

/-- With `J_sc = 1`, `J_0 = -1` the power curve strictly increases at every grid step,
so the loop guard never fails. -/
lemma diodePower_negJ0_guard (m : ℕ) :
    diodePower 1 (-1) 300 ((m : ℝ) * voltageStep)
      < diodePower 1 (-1) 300 (((m : ℝ) + 1) * voltageStep) := by
  have hr : 0 < diodeRate 300 := diodeRate_pos (by norm_num)
  have hs := voltageStep_pos
  rw [diodePower_negJ0_eq, diodePower_negJ0_eq]
  have hm : (0 : ℝ) ≤ (m : ℝ) := Nat.cast_nonneg m
  have hV : (m : ℝ) * voltageStep < ((m : ℝ) + 1) * voltageStep := by nlinarith
  have h1 : Real.exp (diodeRate 300 * ((m : ℝ) * voltageStep)) * ((m : ℝ) * voltageStep)
      ≤ Real.exp (diodeRate 300 * (((m : ℝ) + 1) * voltageStep)) * ((m : ℝ) * voltageStep) :=
    mul_le_mul_of_nonneg_right (Real.exp_le_exp.mpr (by nlinarith)) (by positivity)
  have h2 : Real.exp (diodeRate 300 * (((m : ℝ) + 1) * voltageStep)) * ((m : ℝ) * voltageStep)
      < Real.exp (diodeRate 300 * (((m : ℝ) + 1) * voltageStep)) * (((m : ℝ) + 1) * voltageStep) :=
    (mul_lt_mul_left (Real.exp_pos _)).mpr hV
  linarith

/-- C3 counterexample: at `J_sc = 1`, `J_0 = -1`, `T = 300 K` the exit condition of the
shared maximization loop (`power(V + 0.001) ≤ power(V)`) holds at no grid point, so the
`while` loop of `slme`/`calculate_SQ` never exits; the source contains no iteration bound
and no error reporting on this path. -/
theorem voltage_loop_no_exit_counterexample :
    ¬ ∃ n : ℕ, diodePower 1 (-1) 300 (((n : ℝ) + 1) * voltageStep)
        ≤ diodePower 1 (-1) 300 ((n : ℝ) * voltageStep) := by
  rintro ⟨n, hn⟩
  exact absurd hn (not_le.mpr (diodePower_negJ0_guard n))

/-- C3 (amended): the voltage-sweep loop of `slme` and `calculate_SQ` stops at the first
non-increasing step whenever such a step exists; when the power strictly increases at
every step (e.g. `J_0 < 0`), the loop consumes any amount of fuel without exiting —
the code enforces no iteration bound and reports no error in that case. -/
theorem voltage_loop_termination_dichotomy (Jsc J0 temperature : ℝ) :
    ((∃ n : ℕ, diodePower Jsc J0 temperature (((n : ℝ) + 1) * voltageStep)
        ≤ diodePower Jsc J0 temperature ((n : ℝ) * voltageStep)) →
      ∀ fuel, stopIndex (diodePower Jsc J0 temperature) < fuel →
        climbLoop (diodePower Jsc J0 temperature) fuel 0
          = (stopIndex (diodePower Jsc J0 temperature) : ℝ) * voltageStep) ∧
    ((∀ n : ℕ, diodePower Jsc J0 temperature ((n : ℝ) * voltageStep)
        < diodePower Jsc J0 temperature (((n : ℝ) + 1) * voltageStep)) →
      ∀ fuel : ℕ, climbLoop (diodePower Jsc J0 temperature) fuel 0
        = (fuel : ℝ) * voltageStep) := by
  constructor
  · intro hne fuel hfuel
    obtain ⟨hstop, hlt⟩ := stopIndex_spec (diodePower Jsc J0 temperature) hne
    have := climbLoop_settles (diodePower Jsc J0 temperature)
      (stopIndex (diodePower Jsc J0 temperature)) hlt hstop fuel 0 (Nat.zero_le _) (by omega)
    simpa using this
  · intro hinc fuel
    have := climbLoop_exhausts (diodePower Jsc J0 temperature) hinc fuel 0
    simpa using this

/-- Witness for the amended C3 at `J_sc = 1`, `J_0 = -1`, `T = 300 K` with 5 units of
fuel: the loop exhausts all of its fuel. -/
theorem voltage_loop_termination_dichotomy_witness :
    climbLoop (diodePower 1 (-1) 300) 5 0 = (5 : ℝ) * voltageStep := by
  have := (voltage_loop_termination_dichotomy 1 (-1) 300).2 diodePower_negJ0_guard 5
  simpa using this

/-- scipy's composite-Simpson contribution of one interval pair, in the nonuniform form
scipy uses: `hsum/6 * (y0*(2 - h1/h0) + y1*(hsum²/(h0·h1)) + y2*(2 - h0/h1))`. -/
noncomputable def simpsPair (x0 y0 x1 y1 x2 y2 : ℝ) : ℝ :=
  (x2 - x0) / 6 * (y0 * (2 - (x2 - x1) / (x1 - x0))
    + y1 * ((x2 - x0) ^ 2 / ((x1 - x0) * (x2 - x1)))
    + y2 * (2 - (x1 - x0) / (x2 - x1)))

/-- `scipy.integrate.simps(y, x)` for an odd number of samples (an even number of
intervals), the only case the concrete instances below exercise; scipy's averaging
correction for an even number of samples is not modelled, and none of the theorems
below depends on the value of `simps` on such lists. -/
noncomputable def simps : List ℝ → List ℝ → ℝ
  | y0 :: y1 :: y2 :: ys, x0 :: x1 :: x2 :: xs =>
      simpsPair x0 y0 x1 y1 x2 y2 + simps (y2 :: ys) (x2 :: xs)
  | _, _ => 0

/-- Smallest element of a list (the head of scipy's internally sorted grid). -/
noncomputable def listMin : List ℝ → ℝ
  | [] => 0
  | [x] => x
  | x :: y :: xs => min x (listMin (y :: xs))

/-- Largest element of a list (the last of scipy's internally sorted grid). -/
noncomputable def listMax : List ℝ → ℝ
  | [] => 0
  | [x] => x
  | x :: y :: xs => max x (listMax (y :: xs))

open Classical in
/-- `scipy.interpolate.interp1d(xp, yp, kind='cubic', fill_value=(fillBelow, fillAbove),
bounds_error=False)` evaluated at `q`: scipy sorts `xp` ascending internally, returns
`fillBelow` for `q` below the smallest grid point, `fillAbove` for `q` above the largest,
and otherwise evaluates the cubic spline — modelled by the explicit `inner` argument,
on which no theorem below depends. -/
noncomputable def interp1dTuple (inner : ℝ → ℝ) (xp : List ℝ) (fillBelow fillAbove q : ℝ) : ℝ :=
  if q < listMin xp then fillBelow
  else if listMax xp < q then fillAbove
  else inner q

open Classical in
/-- `np.interp(x, xp, fp)` for an ascending grid `xp`: clamp to the end values outside
the grid, linear interpolation between the two straddling grid points inside. -/
noncomputable def npInterp (x : ℝ) : List ℝ → List ℝ → ℝ
  | x0 :: x1 :: xs, y0 :: y1 :: ys =>
      if x < x0 then y0
      else if x ≤ x1 then y0 + (y1 - y0) * (x - x0) / (x1 - x0)
      else npInterp x (x1 :: xs) (y1 :: ys)
  | [_], y0 :: _ => y0
  | _, _ => 0

open Classical in
/-- `np.searchsorted(a, v)` (side='left') for a sorted list `a`: the first index whose
entry is `≥ v`, i.e. the insertion point that keeps `a` sorted. -/
noncomputable def searchsorted (a : List ℝ) (v : ℝ) : ℕ :=
  match a with
  | [] => 0
  | x :: xs => if v ≤ x then 0 else searchsorted xs v + 1

/-- `blackbody_irradiance = 2.0*h*c**2/λ**5 * (1.0/(np.exp(h*c/(λ*k*temperature)) - 1.0))`
(W/m³), identical in `slme` and `calculate_SQ`. -/
noncomputable def blackbodyIrradiance (temperature l : ℝ) : ℝ :=
  2.0 * hPlanck * cLight ^ 2 / l ^ 5
    * (1.0 / (Real.exp (hPlanck * cLight / (l * kBoltz * temperature)) - 1.0))

/-- `blackbody_photon_flux = blackbody_irradiance * (λ / (h*c))`. -/
noncomputable def blackbodyPhotonFlux (temperature l : ℝ) : ℝ :=
  blackbodyIrradiance temperature l * (l / (hPlanck * cLight))

/-- `fr = np.exp(-delta / (k_e * temperature))` with
`delta = material_direct_allowed_gap - material_indirect_gap` (slme, lines 786-787). -/
noncomputable def slmeFr (temperature directGap indirectGap : ℝ) : ℝ :=
  Real.exp (-(directGap - indirectGap) / (k_e * temperature))

/-- `material_wavelength_for_absorbance_data = c*h_e/(E + 0.00000001) * 10**9` (nm). -/
noncomputable def materialWavelengthNm (energies : List ℝ) : List ℝ :=
  energies.map (fun en => cLight * h_e / (en + 0.00000001) * 1e9)

/-- `material_absorbance_data_function = interp1d(material_wavelength_for_absorbance_data,
material_absorbance_data, kind='cubic', fill_value=(data[0], data[-1]), bounds_error=False)`.
Note the grid handed to scipy is *descending* in wavelength (the energies ascend), while
the fill pair is taken from the data in its original energy order. -/
noncomputable def materialAbsorbanceFunction (inner : ℝ → ℝ)
    (energies absorbance : List ℝ) (q : ℝ) : ℝ :=
  interp1dTuple inner (materialWavelengthNm energies) (absorbance.headD 0)
    (absorbance.getLastD 0) q

/-- The cutoff loop of `slme` (lines 828-839): each solar wavelength gets the
interpolated absorbance if it lies strictly below the direct-allowed-gap wavelength
`1e9 * c*h_e/E_direct` (nm) or the cutoff flag is off, and stays at the initialized
zero otherwise. -/
noncomputable def materialInterpolatedAbsorbance (inner : ℝ → ℝ)
    (energies absorbance : List ℝ) (directGap : ℝ) (cutOff : Bool)
    (solarWavelengthNm : List ℝ) : List ℝ :=
  solarWavelengthNm.map (fun wl =>
    if wl < 1e9 * (cLight * h_e / directGap) ∨ cutOff = false
    then materialAbsorbanceFunction inner energies absorbance wl
    else 0)

/-- `absorbed_by_wavelength = 1.0 - np.exp(-2.0 * material_interpolated_absorbance * thickness)`. -/
noncomputable def absorbedByWavelength (thickness : ℝ) (absorbance : List ℝ) : List ℝ :=
  absorbance.map (fun a => 1.0 - Real.exp (-2.0 * a * thickness))

/-- C4: with the cutoff flag on, the interpolated absorbance entering the `J_0_r`/`J_sc`
integrals is exactly zero at every solar wavelength not strictly below the
direct-allowed-gap wavelength and is the interpolated value elsewhere; with the flag
off, every wavelength retains its interpolated value. -/
theorem slme_absorbance_cutoff (inner : ℝ → ℝ) (energies absorbance solarWavelengthNm : List ℝ)
    (directGap : ℝ) :
    materialInterpolatedAbsorbance inner energies absorbance directGap true solarWavelengthNm
        = solarWavelengthNm.map (fun wl =>
            if wl < 1e9 * (cLight * h_e / directGap)
            then materialAbsorbanceFunction inner energies absorbance wl
            else 0) ∧
      materialInterpolatedAbsorbance inner energies absorbance directGap false solarWavelengthNm
        = solarWavelengthNm.map (materialAbsorbanceFunction inner energies absorbance) := by
  constructor
  · unfold materialInterpolatedAbsorbance
    simp
  · unfold materialInterpolatedAbsorbance
    simp

/-- C5: `fr = exp(-(E_direct - E_fundamental)/(k_e*T))` equals `1` exactly when the two
gaps coincide, so `J_0 = J_0_r / fr` collapses to `J_0 = J_0_r`, which is exactly the
`J_0 = J_0_r / fr` of `calculate_SQ` at its default `fr = 1`. -/
theorem slme_fr_equal_gaps (temperature gap : ℝ) (hT : 0 < temperature) :
    slmeFr temperature gap gap = 1 ∧
      (∀ J0r : ℝ, J0r / slmeFr temperature gap gap = J0r ∧
        J0r / slmeFr temperature gap gap = J0r / (1 : ℝ)) := by
  have h1 : slmeFr temperature gap gap = 1 := by
    unfold slmeFr
    norm_num
  exact ⟨h1, fun J0r => ⟨by rw [h1, div_one], by rw [h1]⟩⟩

/-- Witness for C5 at `T = 293.15 K`, equal gaps of `1.5 eV` and `J_0_r = 2.5`. -/
theorem slme_fr_equal_gaps_witness :
    slmeFr 293.15 1.5 1.5 = 1 ∧ (2.5 : ℝ) / slmeFr 293.15 1.5 1.5 = 2.5 := by
  obtain ⟨h1, h2⟩ := slme_fr_equal_gaps 293.15 1.5 (by norm_num)
  exact ⟨h1, (h2 2.5).1⟩

/-- C7: evaluation of `slme`'s interpolant at queries outside the absorbance data's
energy range.  The data grid handed to scipy is descending in wavelength, scipy sorts it
ascending, yet the code passes `fill_value = (data[0], data[-1])` in energy order; the
clamp is therefore to the *opposite* boundary.  With energies `[1, 1.5, 2, 2.2]` eV
(wavelengths `≈ [1239.8, 826.6, 619.9, 563.6]` nm) and data `[10, 20, 30, 40]`:
a query at `413` nm (`≈ 3.0 eV`, above the energy range) returns `10`, the value at the
*lowest*-energy end, and a query at `2000` nm (`≈ 0.62 eV`, below the energy range)
returns `40`, the value at the *highest*-energy end — each the reverse of the
nearest-boundary clamp the specification prescribes. -/
theorem slme_extrapolation_clamp_swapped :
    materialAbsorbanceFunction (fun _ => 0) [1, 1.5, 2, 2.2] [10, 20, 30, 40] 413 = 10 ∧
      materialAbsorbanceFunction (fun _ => 0) [1, 1.5, 2, 2.2] [10, 20, 30, 40] 2000 = 40 ∧
      (10 : ℝ) ≠ 40 := by
  have hwl : materialWavelengthNm [1, 1.5, 2, 2.2]
      = [cLight * h_e / (1 + 0.00000001) * 1e9, cLight * h_e / (1.5 + 0.00000001) * 1e9,
         cLight * h_e / (2 + 0.00000001) * 1e9, cLight * h_e / (2.2 + 0.00000001) * 1e9] := by
    simp [materialWavelengthNm]
  refine ⟨?_, ?_, by norm_num⟩
  · unfold materialAbsorbanceFunction interp1dTuple
    rw [hwl]
    rw [if_pos]
    · simp
    · show (413 : ℝ) < listMin _
      simp only [listMin, lt_min_iff]
      refine ⟨?_, ?_, ?_, ?_⟩ <;> norm_num [cLight, h_e, hPlanck, eCharge]
  · unfold materialAbsorbanceFunction interp1dTuple
    rw [hwl]
    rw [if_neg, if_pos]
    · simp
    · show listMax _ < (2000 : ℝ)
      simp only [listMax, max_lt_iff]
      refine ⟨?_, ?_, ?_, ?_⟩ <;> norm_num [cLight, h_e, hPlanck, eCharge]
    · show ¬ (2000 : ℝ) < listMin _
      simp only [listMin, not_lt, min_le_iff]
      left
      norm_num [cLight, h_e, hPlanck, eCharge]

/-- The imaginary part of the principal complex square root (`cmath.sqrt`) is
non-negative whenever the argument's imaginary part is. -/
lemma im_cpow_half_nonneg (z : ℂ) (hz : 0 ≤ z.im) : 0 ≤ (z ^ ((1 : ℂ) / 2)).im := by
  rcases eq_or_ne z 0 with h0 | h0
  · subst h0
    rw [Complex.zero_cpow (by norm_num : ((1 : ℂ) / 2) ≠ 0)]
    simp
  · rw [Complex.cpow_def_of_ne_zero h0, Complex.exp_im]
    apply mul_nonneg (Real.exp_pos _).le
    have him : (Complex.log z * ((1 : ℂ) / 2)).im = z.arg / 2 := by
      simp [Complex.mul_im, Complex.log_im]
      ring
    rw [him]
    apply Real.sin_nonneg_of_nonneg_of_le_pi
    · have := Complex.arg_nonneg_iff.mpr hz
      linarith
    · have h1 := Complex.arg_le_pi z
      have h2 := Real.pi_pos
      linarith

/-- `DielTensor.absorption_coefficient`: `2.0 * E * k / (hbar/e * c)` per energy sample,
with `k = cmath.sqrt(v).imag` for `v` the dielectric-function value at that sample
(`cmath.sqrt` is the principal complex square root, embedded as `v ^ (1/2)`). -/
noncomputable def absorption_coefficient (energies : List ℝ)
    (dielectricFunction : List ℂ) : List ℝ :=
  List.zipWith
    (fun en v => 2.0 * en * (v ^ ((1 : ℂ) / 2)).im / (hbarConst / eCharge * cLight))
    energies dielectricFunction

lemma absorption_scale_pos : 0 < hbarConst / eCharge * cLight := by
  have hp := Real.pi_pos
  have h1 : (0 : ℝ) < hbarConst := by
    unfold hbarConst hPlanck
    positivity
  have h2 : (0 : ℝ) < eCharge := by norm_num [eCharge]
  have h3 : (0 : ℝ) < cLight := by norm_num [cLight]
  positivity

/-- C8: for non-negative energies and a dielectric function with non-negative imaginary
part at every sample, every entry of `absorption_coefficient` is non-negative, the
principal square root having non-negative imaginary part under that precondition. -/
theorem absorption_coefficient_nonneg (energies : List ℝ) (dielectricFunction : List ℂ)
    (hE : ∀ en ∈ energies, 0 ≤ en) (hIm : ∀ v ∈ dielectricFunction, 0 ≤ v.im) :
    ∀ a ∈ absorption_coefficient energies dielectricFunction, 0 ≤ a := by
  induction energies generalizing dielectricFunction with
  | nil => intro a ha; simp [absorption_coefficient] at ha
  | cons en es ih =>
    intro a ha
    cases dielectricFunction with
    | nil => simp [absorption_coefficient] at ha
    | cons v vs =>
      simp only [absorption_coefficient, List.zipWith_cons_cons, List.mem_cons] at ha
      rcases ha with h | h
      · subst h
        apply div_nonneg _ absorption_scale_pos.le
        have h1 : (0 : ℝ) ≤ en := hE en (List.mem_cons_self en es)
        have h2 : 0 ≤ (v ^ ((1 : ℂ) / 2)).im :=
          im_cpow_half_nonneg v (hIm v (List.mem_cons_self v vs))
        positivity
      · exact ih vs (fun x hx => hE x (List.mem_cons_of_mem en hx))
          (fun x hx => hIm x (List.mem_cons_of_mem v hx)) a h

/-- Witness for C8: energies `[2]` with dielectric-function value `i` (imaginary part 1);
the single resulting coefficient is non-negative. -/
theorem absorption_coefficient_nonneg_witness :
    0 ≤ (absorption_coefficient [2] [Complex.I]).headD 0 := by
  have h := absorption_coefficient_nonneg [2] [Complex.I]
    (by intro en hen; simp only [List.mem_singleton] at hen; subst hen; norm_num)
    (by intro v hv; simp only [List.mem_singleton] at hv; subst hv; simp)
  exact h _ (by simp [absorption_coefficient])

/-- `to_matrix(xx, yy, zz, xy, yz, xz)`: the symmetric 3×3 matrix
`[[xx, xy, xz], [xy, yy, yz], [xz, yz, zz]]`. -/
def to_matrix (xx yy zz xy yz xz : ℝ) : Matrix (Fin 3) (Fin 3) ℝ :=
  !![xx, xy, xz; xy, yy, yz; xz, yz, zz]

/-- One vasprun-format dielectric entry `[xx, yy, zz, xy, yz, xz]`. -/
structure DielEntry where
  xx : ℝ
  yy : ℝ
  zz : ℝ
  xy : ℝ
  yz : ℝ
  xz : ℝ

/-- The symmetric matrix of one entry. -/
def entryMatrix (d : DielEntry) : Matrix (Fin 3) (Fin 3) ℝ :=
  to_matrix d.xx d.yy d.zz d.xy d.yz d.xz

/-- `to_matrix(*real_data) + 1j * to_matrix(*imag_data)`. -/
noncomputable def entryTensor (re imEntry : DielEntry) : Matrix (Fin 3) (Fin 3) ℂ :=
  fun i j => ⟨entryMatrix re i j, entryMatrix imEntry i j⟩

/-- One component of the `dielectric_data` tuple handed to `DielTensor`: an energy grid,
a list of 6-component entries, or a list of pre-digested tensors. -/
inductive DielComponent where
  | energies (es : List ℝ)
  | entries (ds : List DielEntry)
  | tensors (ts : List (Matrix (Fin 3) (Fin 3) ℂ))

/-- The raw `dielectric_data` argument: whether it is a Python tuple, and its
components. -/
structure DielData where
  isTuple : Bool
  components : List DielComponent

/-- `DielTensor.parse_dielectric_data`: a tuple of length 3 is the vasprun layout
(energies, real 6-tuples, imaginary 6-tuples), a tuple of length 2 the Outcar layout
(energies, tensors); anything else raises (`ImportError("Format of dielectric data not
recognized.")`, the error the specification's taxonomy names `FormatError`). -/
noncomputable def parse_dielectric_data (d : DielData) :
    Except String (List ℝ × List (Matrix (Fin 3) (Fin 3) ℂ)) :=
  match d with
  | ⟨true, [DielComponent.energies es, DielComponent.entries re, DielComponent.entries im]⟩ =>
      Except.ok (es, List.zipWith entryTensor re im)
  | ⟨true, [DielComponent.energies es, DielComponent.tensors ts]⟩ =>
      Except.ok (es, ts)
  | _ => Except.error "Format of dielectric data not recognized."

/-- C9: dielectric data whose shape matches neither recognized layout — e.g. any
4-tuple — raises the format error, while both recognized layouts construct without
raising. -/
theorem dieltensor_format_error :
    (∀ c1 c2 c3 c4 : DielComponent, ∀ b : Bool,
        parse_dielectric_data ⟨b, [c1, c2, c3, c4]⟩
          = Except.error "Format of dielectric data not recognized.") ∧
      (∀ es re im, ∃ v, parse_dielectric_data
          ⟨true, [DielComponent.energies es, DielComponent.entries re,
            DielComponent.entries im]⟩ = Except.ok v) ∧
      (∀ es ts, ∃ v, parse_dielectric_data
          ⟨true, [DielComponent.energies es, DielComponent.tensors ts]⟩
          = Except.ok v) := by
  refine ⟨?_, ?_, ?_⟩
  · intro c1 c2 c3 c4 b
    cases b <;> cases c1 <;> cases c2 <;> cases c3 <;> rfl
  · intro es re im
    exact ⟨_, rfl⟩
  · intro es ts
    exact ⟨_, rfl⟩

/-- `EMRadSpectrum`: energy grid (eV) and energy-dependent photon flux in the
module's canonical units. -/
structure EMRadSpectrum where
  energy : List ℝ
  photon_flux : List ℝ

/-- `EMRadSpectrum.from_data(data, variable, spectrum_units)`: accepts the independent
variable as `"energy"` or `"wavelength"` (the latter converted by `E = h_e*c/λ` with
both arrays flipped to restore ascending order and the spectrum rescaled by
`h_e*c/E²`), then the units as `"flux"` or `"power"` (the latter divided by
`e * energy`); any other declared variable or units raises `NotImplementedError`. -/
noncomputable def from_data (grid spectrum : List ℝ) (varName units : String) :
    Except String EMRadSpectrum := do
  let p ←
    if varName = "energy" then
      Except.ok (grid, spectrum)
    else if varName = "wavelength" then
      let energy := (grid.map (fun wl => h_e * cLight / wl)).reverse
      Except.ok (energy,
        List.zipWith (fun s en => s * h_e * cLight / en ^ 2) spectrum.reverse energy)
    else Except.error "NotImplementedError"
  if units = "flux" then
    Except.ok ⟨p.1, p.2⟩
  else if units = "power" then
    Except.ok ⟨p.1, List.zipWith (fun s en => s / (eCharge * en)) p.2 p.1⟩
  else Except.error "NotImplementedError"

/-- C10: `from_data` succeeds exactly on the combinations in
`{energy, wavelength} × {flux, power}` and raises `NotImplementedError` on all
others. -/
theorem emrad_from_data_supported (grid spectrum : List ℝ) (varName units : String) :
    (∃ s, from_data grid spectrum varName units = Except.ok s) ↔
      ((varName = "energy" ∨ varName = "wavelength")
        ∧ (units = "flux" ∨ units = "power")) := by
  by_cases h1 : varName = "energy" <;> by_cases h2 : varName = "wavelength" <;>
    by_cases h3 : units = "flux" <;> by_cases h4 : units = "power" <;>
      simp [from_data, h1, h2, h3, h4, Bind.bind, Except.bind]

/-- `bandgap_wavelength = h_e * c / bandgap_ev` (m). -/
noncomputable def bandgapWavelength (bandgapEv : ℝ) : ℝ := h_e * cLight / bandgapEv

/-- `integration_wavelength = concatenate(wavelength_meters[:bandgap_index],
[bandgap_wavelength])` with `bandgap_index = np.searchsorted(wavelength_meters,
bandgap_wavelength)` (calculate_SQ, lines 654-670). -/
noncomputable def sqIntegrationWavelength (wavelengthM : List ℝ) (bandgapEv : ℝ) : List ℝ :=
  wavelengthM.take (searchsorted wavelengthM (bandgapWavelength bandgapEv))
    ++ [bandgapWavelength bandgapEv]

/-- `integration_solar_flux = concatenate(flux[:bandgap_index],
interp([bandgap_wavelength], wavelength_meters, flux))`: the appended boundary sample
is the *linear interpolation* of the flux at the gap wavelength. -/
noncomputable def sqIntegrationSolarFlux (wavelengthM flux : List ℝ) (bandgapEv : ℝ) :
    List ℝ :=
  flux.take (searchsorted wavelengthM (bandgapWavelength bandgapEv))
    ++ [npInterp (bandgapWavelength bandgapEv) wavelengthM flux]

/-- `integration_blackbody = concatenate(blackbody_photon_flux[:bandgap_index],
[bandgap_blackbody])`: the appended boundary sample `bandgap_blackbody` is the Planck
photon flux evaluated *directly* at the gap wavelength (lines 660-664), not an
interpolation of the grid samples. -/
noncomputable def sqIntegrationBlackbody (wavelengthM : List ℝ)
    (temperature bandgapEv : ℝ) : List ℝ :=
  (wavelengthM.map (blackbodyPhotonFlux temperature)).take
      (searchsorted wavelengthM (bandgapWavelength bandgapEv))
    ++ [blackbodyPhotonFlux temperature (bandgapWavelength bandgapEv)]

/-- For a sorted grid, `np.searchsorted` splits it exactly at `v`: every sample kept by
`take` is strictly below `v` and every dropped sample is at least `v`. -/
lemma searchsorted_take_drop (a : List ℝ) (v : ℝ) (hs : a.Pairwise (· ≤ ·)) :
    (∀ x ∈ a.take (searchsorted a v), x < v) ∧
      ∀ x ∈ a.drop (searchsorted a v), v ≤ x := by
  induction a with
  | nil => constructor <;> simp [searchsorted]
  | cons x xs ih =>
    rcases List.pairwise_cons.mp hs with ⟨hx, hxs⟩
    by_cases hv : v ≤ x
    · constructor
      · simp [searchsorted, hv]
      · intro y hy
        simp only [searchsorted, if_pos hv, List.drop_zero, List.mem_cons] at hy
        rcases hy with hy | hy
        · subst hy; exact hv
        · exact le_trans hv (hx y hy)
    · obtain ⟨ih1, ih2⟩ := ih hxs
      constructor
      · intro y hy
        simp only [searchsorted, if_neg hv, List.take_succ_cons, List.mem_cons] at hy
        rcases hy with hy | hy
        · subst hy; exact not_le.mp hv
        · exact ih1 y hy
      · intro y hy
        simp only [searchsorted, if_neg hv, List.drop_succ_cons] at hy
        exact ih2 y hy

/-- `np.interp` inside the first grid interval is the two-point linear interpolation. -/
lemma npInterp_first_interval (x x0 x1 : ℝ) (xs : List ℝ) (y0 y1 : ℝ) (ys : List ℝ)
    (h0 : x0 ≤ x) (h1 : x ≤ x1) :
    npInterp x (x0 :: x1 :: xs) (y0 :: y1 :: ys)
      = y0 + (y1 - y0) * (x - x0) / (x1 - x0) := by
  unfold npInterp
  rw [if_neg (not_lt.mpr h0), if_pos h1]

/-- C6 (amended): for a sorted wavelength grid, each integration array of
`calculate_SQ` is the grid samples strictly below the band-gap wavelength
`λ_g = h_e*c/E_g` followed by one appended boundary sample at exactly `λ_g`; the solar
boundary sample is the `np.interp` *linear interpolation* at `λ_g` (made explicit by the
last conjunct), while the blackbody boundary sample is the Planck photon flux evaluated
*directly* at `λ_g`. -/
theorem sq_truncation_boundary (wavelengthM flux : List ℝ) (temperature bandgapEv : ℝ)
    (hsort : wavelengthM.Pairwise (· ≤ ·)) :
    (∀ x ∈ wavelengthM.take (searchsorted wavelengthM (bandgapWavelength bandgapEv)),
        x < bandgapWavelength bandgapEv) ∧
      (∀ x ∈ wavelengthM.drop (searchsorted wavelengthM (bandgapWavelength bandgapEv)),
        bandgapWavelength bandgapEv ≤ x) ∧
      (sqIntegrationWavelength wavelengthM bandgapEv).getLast?
        = some (bandgapWavelength bandgapEv) ∧
      (sqIntegrationSolarFlux wavelengthM flux bandgapEv).getLast?
        = some (npInterp (bandgapWavelength bandgapEv) wavelengthM flux) ∧
      (sqIntegrationBlackbody wavelengthM temperature bandgapEv).getLast?
        = some (blackbodyPhotonFlux temperature (bandgapWavelength bandgapEv)) ∧
      ∀ x0 x1 : ℝ, ∀ xs : List ℝ, ∀ y0 y1 : ℝ, ∀ ys : List ℝ,
        x0 ≤ bandgapWavelength bandgapEv → bandgapWavelength bandgapEv ≤ x1 →
        npInterp (bandgapWavelength bandgapEv) (x0 :: x1 :: xs) (y0 :: y1 :: ys)
          = y0 + (y1 - y0) * (bandgapWavelength bandgapEv - x0) / (x1 - x0) := by
  obtain ⟨h1, h2⟩ := searchsorted_take_drop wavelengthM (bandgapWavelength bandgapEv) hsort
  refine ⟨h1, h2, ?_, ?_, ?_, ?_⟩
  · unfold sqIntegrationWavelength
    rw [List.getLast?_append_cons]
    rfl
  · unfold sqIntegrationSolarFlux
    rw [List.getLast?_append_cons]
    rfl
  · unfold sqIntegrationBlackbody
    rw [List.getLast?_append_cons]
    rfl
  · intro x0 x1 xs y0 y1 ys h0 hx1
    exact npInterp_first_interval _ _ _ _ _ _ _ h0 hx1

/-- Witness for the amended C6 on the two-point grid `[1e-6, 3e-6]` m with a band gap
whose wavelength is `2e-6` m. -/
theorem sq_truncation_boundary_witness :
    ([(1e-6 : ℝ), 3e-6].Pairwise (· ≤ ·)) ∧
      (sqIntegrationWavelength [1e-6, 3e-6] (h_e * cLight / 2e-6)).getLast?
        = some (bandgapWavelength (h_e * cLight / 2e-6)) := by
  have hsort : ([(1e-6 : ℝ), 3e-6].Pairwise (· ≤ ·)) := by
    simp [List.pairwise_cons]
    norm_num
  exact ⟨hsort,
    (sq_truncation_boundary [1e-6, 3e-6] [5, 7] 300 (h_e * cLight / 2e-6) hsort).2.2.1⟩

lemma exp_half_lt : Real.exp ((1 : ℝ) / 2) < 27 / 16 := by
  have h := Real.exp_one_lt_d9
  have hsq : Real.exp ((1 : ℝ) / 2) ^ 2 = Real.exp 1 := by
    rw [← Real.exp_nat_mul]
    norm_num
  nlinarith [Real.exp_pos ((1 : ℝ) / 2)]

/-- The blackbody photon flux in its reduced form `2c/λ⁴ · 1/(exp(hc/(λkT)) - 1)`. -/
lemma blackbodyPhotonFlux_eq (temperature l : ℝ) (hl : l ≠ 0) :
    blackbodyPhotonFlux temperature l
      = 2 * cLight / l ^ 4
        * (1 / (Real.exp (hPlanck * cLight / (l * kBoltz * temperature)) - 1)) := by
  unfold blackbodyPhotonFlux blackbodyIrradiance
  have hh : hPlanck ≠ 0 := by norm_num [hPlanck]
  have hc : cLight ≠ 0 := by norm_num [cLight]
  rw [mul_right_comm]
  have hAB : 2.0 * hPlanck * cLight ^ 2 / l ^ 5 * (l / (hPlanck * cLight))
      = 2 * cLight / l ^ 4 := by
    field_simp
    ring
  rw [hAB]
  norm_num

set_option maxHeartbeats 1000000 in
/-- C6 counterexample: on the grid `[1e-6, 3e-6]` m with a band gap whose wavelength is
`λ_g = 2e-6` m and the temperature `T = 2hc/(1e-6·k)` (making `hc/(λkT)` equal `1/2`,
`1/4`, `1/6` at `1e-6`, `2e-6`, `3e-6` m), the blackbody boundary sample the code
appends — the Planck photon flux evaluated directly at `λ_g` — differs from the linear
interpolation of the grid's blackbody samples at `λ_g`, so the blackbody boundary
sample is *not* obtained by linear interpolation as the claim states. -/
theorem sq_blackbody_boundary_not_interpolated :
    (sqIntegrationBlackbody [1e-6, 3e-6] (2 * hPlanck * cLight / (1e-6 * kBoltz))
        (h_e * cLight / 2e-6)).getLast?
      ≠ some (npInterp (bandgapWavelength (h_e * cLight / 2e-6)) [1e-6, 3e-6]
          (List.map (blackbodyPhotonFlux (2 * hPlanck * cLight / (1e-6 * kBoltz)))
            [1e-6, 3e-6])) := by
  set T := 2 * hPlanck * cLight / (1e-6 * kBoltz) with hTdef
  have h1 : hPlanck ≠ 0 := by norm_num [hPlanck]
  have h2 : eCharge ≠ 0 := by norm_num [eCharge]
  have h3 : cLight ≠ 0 := by norm_num [cLight]
  have hkn : kBoltz ≠ 0 := by norm_num [kBoltz]
  have hlamg : bandgapWavelength (h_e * cLight / 2e-6) = 2e-6 := by
    unfold bandgapWavelength h_e
    field_simp
    ring
  have hx1 : hPlanck * cLight / ((1e-6 : ℝ) * kBoltz * T) = 1 / 2 := by
    rw [hTdef]; field_simp; ring
  have hxg : hPlanck * cLight / ((2e-6 : ℝ) * kBoltz * T) = 1 / 4 := by
    rw [hTdef]; field_simp; ring
  have hx2 : hPlanck * cLight / ((3e-6 : ℝ) * kBoltz * T) = 1 / 6 := by
    rw [hTdef]; field_simp; ring
  have hlast : (sqIntegrationBlackbody [1e-6, 3e-6] T (h_e * cLight / 2e-6)).getLast?
      = some (blackbodyPhotonFlux T (bandgapWavelength (h_e * cLight / 2e-6))) := by
    unfold sqIntegrationBlackbody
    rw [List.getLast?_append_cons]
    rfl
  have hgrid0 : (1e-6 : ℝ) ≤ bandgapWavelength (h_e * cLight / 2e-6) := by
    rw [hlamg]; norm_num
  have hgrid1 : bandgapWavelength (h_e * cLight / 2e-6) ≤ 3e-6 := by
    rw [hlamg]; norm_num
  have hinterp : npInterp (bandgapWavelength (h_e * cLight / 2e-6)) [1e-6, 3e-6]
      (List.map (blackbodyPhotonFlux T) [1e-6, 3e-6])
      = (blackbodyPhotonFlux T 1e-6 + blackbodyPhotonFlux T 3e-6) / 2 := by
    simp only [List.map_cons, List.map_nil]
    rw [npInterp_first_interval _ _ _ _ _ _ _ hgrid0 hgrid1, hlamg]
    norm_num
    ring
  have hb1 : blackbodyPhotonFlux T 1e-6
      = 2 * cLight / (1e-6 : ℝ) ^ 4 * (1 / (Real.exp ((1 : ℝ) / 2) - 1)) := by
    rw [blackbodyPhotonFlux_eq _ _ (by norm_num), hx1]
  have hbg : blackbodyPhotonFlux T 2e-6
      = 2 * cLight / (2e-6 : ℝ) ^ 4 * (1 / (Real.exp ((1 : ℝ) / 4) - 1)) := by
    rw [blackbodyPhotonFlux_eq _ _ (by norm_num), hxg]
  have hb2 : blackbodyPhotonFlux T 3e-6
      = 2 * cLight / (3e-6 : ℝ) ^ 4 * (1 / (Real.exp ((1 : ℝ) / 6) - 1)) := by
    rw [blackbodyPhotonFlux_eq _ _ (by norm_num), hx2]
  have hE1pos : (0 : ℝ) < Real.exp ((1 : ℝ) / 2) - 1 := by
    nlinarith [Real.add_one_le_exp ((1 : ℝ) / 2)]
  have hE1up : Real.exp ((1 : ℝ) / 2) - 1 ≤ 11 / 16 := by nlinarith [exp_half_lt]
  have hEg : (1 : ℝ) / 4 ≤ Real.exp ((1 : ℝ) / 4) - 1 := by
    nlinarith [Real.add_one_le_exp ((1 : ℝ) / 4)]
  have hE2pos : (0 : ℝ) < Real.exp ((1 : ℝ) / 6) - 1 := by
    nlinarith [Real.add_one_le_exp ((1 : ℝ) / 6)]
  have hc0 : (0 : ℝ) < cLight := by norm_num [cLight]
  have hinv1 : (16 : ℝ) / 11 ≤ 1 / (Real.exp ((1 : ℝ) / 2) - 1) := by
    rw [le_div_iff₀ hE1pos]; nlinarith
  have hinvg : 1 / (Real.exp ((1 : ℝ) / 4) - 1) ≤ 4 := by
    rw [div_le_iff₀ (by linarith)]; linarith
  have hinvgpos : 0 < 1 / (Real.exp ((1 : ℝ) / 4) - 1) := by positivity
  have hinv2pos : 0 < 1 / (Real.exp ((1 : ℝ) / 6) - 1) := by positivity
  have hfinal : blackbodyPhotonFlux T 2e-6
      < (blackbodyPhotonFlux T 1e-6 + blackbodyPhotonFlux T 3e-6) / 2 := by
    rw [hb1, hbg, hb2]
    have e1 : 2 * cLight / (1e-6 : ℝ) ^ 4 = 2 * cLight * 1e24 := by
      rw [div_eq_mul_inv]; norm_num
    have eg : 2 * cLight / (2e-6 : ℝ) ^ 4 = 2 * cLight * (1e24 / 16) := by
      rw [div_eq_mul_inv]; norm_num
    have e2 : 2 * cLight / (3e-6 : ℝ) ^ 4 = 2 * cLight * (1e24 / 81) := by
      rw [div_eq_mul_inv]; norm_num
    rw [e1, eg, e2]
    have hb1low : 2 * cLight * 1e24 * (16 / 11)
        ≤ 2 * cLight * 1e24 * (1 / (Real.exp ((1 : ℝ) / 2) - 1)) :=
      mul_le_mul_of_nonneg_left hinv1 (by positivity)
    have hbgup : 2 * cLight * (1e24 / 16) * (1 / (Real.exp ((1 : ℝ) / 4) - 1))
        ≤ 2 * cLight * (1e24 / 16) * 4 :=
      mul_le_mul_of_nonneg_left hinvg (by positivity)
    have hb2low : 0 ≤ 2 * cLight * (1e24 / 81) * (1 / (Real.exp ((1 : ℝ) / 6) - 1)) := by
      positivity
    linarith
  rw [hlast, hinterp, hlamg]
  exact fun heq => absurd (Option.some_injective ℝ heq) (ne_of_lt hfinal)

/-- `solar_spectra_photon_flux = irradiance * (wavelength_meters / (h*c))`. -/
noncomputable def solarPhotonFlux (wavelengthM irradiance : List ℝ) : List ℝ :=
  List.zipWith (fun irr wl => irr * (wl / (hPlanck * cLight))) irradiance wavelengthM

/-- `power_in = simps(irradiance, wavelength_nm)`, identical in `slme` and
`calculate_SQ`. -/
noncomputable def powerIn (wavelengthNm irradiance : List ℝ) : ℝ := simps irradiance wavelengthNm

/-- `J_0 = J_0_r / fr` of `calculate_SQ`, with
`J_0_r = e * np.pi * simps(integration_blackbody, integration_wavelength)`. -/
noncomputable def sqJ0 (wavelengthNm : List ℝ) (temperature bandgapEv fr : ℝ) : ℝ :=
  eCharge * Real.pi
      * simps
        (sqIntegrationBlackbody (wavelengthNm.map (fun wl => wl * 1e-9)) temperature bandgapEv)
        (sqIntegrationWavelength (wavelengthNm.map (fun wl => wl * 1e-9)) bandgapEv)
    / fr

/-- `J_sc = e * simps(integration_solar_flux * 1e9, integration_wavelength)` of
`calculate_SQ`. -/
noncomputable def sqJsc (wavelengthNm irradiance : List ℝ) (bandgapEv : ℝ) : ℝ :=
  eCharge * simps
    ((sqIntegrationSolarFlux (wavelengthNm.map (fun wl => wl * 1e-9))
        (solarPhotonFlux (wavelengthNm.map (fun wl => wl * 1e-9)) irradiance) bandgapEv).map
      (fun y => y * 1e9))
    (sqIntegrationWavelength (wavelengthNm.map (fun wl => wl * 1e-9)) bandgapEv)

/-- `calculate_SQ(bandgap_ev, temperature, fr)`, taking the two columns of the
reference-spectrum dataset (wavelength nm, irradiance) as explicit arguments:
`efficiency = max_power / power_in`. -/
noncomputable def calculate_SQ (wavelengthNm irradiance : List ℝ)
    (bandgapEv temperature fr : ℝ) : ℝ :=
  maxPowerOf (diodePower (sqJsc wavelengthNm irradiance bandgapEv)
      (sqJ0 wavelengthNm temperature bandgapEv fr) temperature)
    / powerIn wavelengthNm irradiance

/-- `if absorbance_in_inverse_centimeters: material_absorbance_data *= 100`. -/
noncomputable def slmeScaledAbsorbance (absorbanceData : List ℝ) (absorbanceInCm : Bool) :
    List ℝ :=
  if absorbanceInCm then absorbanceData.map (fun a => a * 100) else absorbanceData

/-- `absorbed_by_wavelength` of `slme`, from the interpolated-and-cut-off absorbance. -/
noncomputable def slmeAbsorbed (inner : ℝ → ℝ) (energies absorbance : List ℝ)
    (directGap thickness : ℝ) (cutOff : Bool) (solarWavelengthNm : List ℝ) : List ℝ :=
  absorbedByWavelength thickness
    (materialInterpolatedAbsorbance inner energies absorbance directGap cutOff
      solarWavelengthNm)

/-- `J_0_r = e * np.pi * simps(blackbody_photon_flux * absorbed_by_wavelength,
solar_spectra_wavelength_meters)` of `slme`. -/
noncomputable def slmeJ0r (inner : ℝ → ℝ) (solarWavelengthNm energies absorbance : List ℝ)
    (directGap thickness temperature : ℝ) (cutOff : Bool) : ℝ :=
  eCharge * Real.pi * simps
    (List.zipWith (fun b a => b * a)
      ((solarWavelengthNm.map (fun wl => wl * 1e-9)).map (blackbodyPhotonFlux temperature))
      (slmeAbsorbed inner energies absorbance directGap thickness cutOff solarWavelengthNm))
    (solarWavelengthNm.map (fun wl => wl * 1e-9))

/-- `J_sc = e * simps(solar_spectra_photon_flux * absorbed_by_wavelength,
solar_spectra_wavelength)` of `slme` (note: the nm grid, unlike `J_0_r`'s meters). -/
noncomputable def slmeJsc (inner : ℝ → ℝ)
    (solarWavelengthNm irradiance energies absorbance : List ℝ)
    (directGap thickness : ℝ) (cutOff : Bool) : ℝ :=
  eCharge * simps
    (List.zipWith (fun f a => f * a)
      (solarPhotonFlux (solarWavelengthNm.map (fun wl => wl * 1e-9)) irradiance)
      (slmeAbsorbed inner energies absorbance directGap thickness cutOff solarWavelengthNm))
    solarWavelengthNm

/-- `slme(material_energy, material_absorbance, direct_gap, indirect_gap, thickness,
temperature, absorbance_in_inverse_centimeters, cut_off_absorbance_below_direct_allowed_gap)`
over the two dataset columns: `efficiency = max_power / power_in`. -/
noncomputable def slme (inner : ℝ → ℝ) (solarWavelengthNm irradiance : List ℝ)
    (energies absorbanceData : List ℝ)
    (directGap indirectGap thickness temperature : ℝ) (absorbanceInCm cutOff : Bool) : ℝ :=
  maxPowerOf (diodePower
      (slmeJsc inner solarWavelengthNm irradiance energies
        (slmeScaledAbsorbance absorbanceData absorbanceInCm) directGap thickness cutOff)
      (slmeJ0r inner solarWavelengthNm energies
          (slmeScaledAbsorbance absorbanceData absorbanceInCm) directGap thickness temperature
          cutOff
        / slmeFr temperature directGap indirectGap)
      temperature)
    / powerIn solarWavelengthNm irradiance

/-- Whenever the maximization loop settles, the settled power is at least
`power(0) = 0`. -/
lemma maxPowerOf_nonneg (Jsc J0 temperature : ℝ)
    (hstop : ∃ n : ℕ, diodePower Jsc J0 temperature (((n : ℝ) + 1) * voltageStep)
      ≤ diodePower Jsc J0 temperature ((n : ℝ) * voltageStep)) :
    0 ≤ maxPowerOf (diodePower Jsc J0 temperature) := by
  obtain ⟨hstop', hlt⟩ := stopIndex_spec _ hstop
  have h0 := power_chain_nonneg (diodePower Jsc J0 temperature)
    (stopIndex (diodePower Jsc J0 temperature)) hlt
  have hz : diodePower Jsc J0 temperature ((0 : ℝ) * voltageStep) = 0 := by
    simp [diodePower]
  unfold maxPowerOf
  rw [hz] at h0
  exact h0

/-- C2 (amended): whenever the maximization loop settles and the integrated incident
power is positive, the efficiency returned by `slme`, and likewise by `calculate_SQ`,
is non-negative.  (The upper bound 1 of the original claim is not implied by the code:
see the counterexample.) -/
theorem efficiency_nonneg (inner : ℝ → ℝ)
    (solarWavelengthNm irradiance energies absorbanceData : List ℝ)
    (directGap indirectGap thickness temperature bandgapEv fr : ℝ)
    (absorbanceInCm cutOff : Bool)
    (hstop1 : ∃ n : ℕ,
      diodePower
          (slmeJsc inner solarWavelengthNm irradiance energies
            (slmeScaledAbsorbance absorbanceData absorbanceInCm) directGap thickness cutOff)
          (slmeJ0r inner solarWavelengthNm energies
              (slmeScaledAbsorbance absorbanceData absorbanceInCm) directGap thickness
              temperature cutOff
            / slmeFr temperature directGap indirectGap)
          temperature (((n : ℝ) + 1) * voltageStep)
        ≤ diodePower
          (slmeJsc inner solarWavelengthNm irradiance energies
            (slmeScaledAbsorbance absorbanceData absorbanceInCm) directGap thickness cutOff)
          (slmeJ0r inner solarWavelengthNm energies
              (slmeScaledAbsorbance absorbanceData absorbanceInCm) directGap thickness
              temperature cutOff
            / slmeFr temperature directGap indirectGap)
          temperature ((n : ℝ) * voltageStep))
    (hstop2 : ∃ n : ℕ,
      diodePower (sqJsc solarWavelengthNm irradiance bandgapEv)
          (sqJ0 solarWavelengthNm temperature bandgapEv fr) temperature
          (((n : ℝ) + 1) * voltageStep)
        ≤ diodePower (sqJsc solarWavelengthNm irradiance bandgapEv)
          (sqJ0 solarWavelengthNm temperature bandgapEv fr) temperature
          ((n : ℝ) * voltageStep))
    (hpow : 0 < powerIn solarWavelengthNm irradiance) :
    0 ≤ slme inner solarWavelengthNm irradiance energies absorbanceData directGap
        indirectGap thickness temperature absorbanceInCm cutOff ∧
      0 ≤ calculate_SQ solarWavelengthNm irradiance bandgapEv temperature fr := by
  constructor
  · unfold slme
    exact div_nonneg (maxPowerOf_nonneg _ _ _ hstop1) hpow.le
  · unfold calculate_SQ
    exact div_nonneg (maxPowerOf_nonneg _ _ _ hstop2) hpow.le

lemma slmeFr_self (temperature gap : ℝ) : slmeFr temperature gap gap = 1 := by
  unfold slmeFr
  norm_num

lemma diodePower_zero (temperature V : ℝ) : diodePower 0 0 temperature V = 0 := by
  simp [diodePower, diodeJ]

lemma simps_singleton (y x : ℝ) : simps [y] [x] = 0 := rfl

lemma cex0_slmeJsc : slmeJsc (fun _ => 0) [300, 400, 500] [1, 1, 1] [1, 1.5, 2, 2.2]
    (slmeScaledAbsorbance [0, 0, 0, 0] false) 2 50e-6 true = 0 := by
  simp [slmeJsc, slmeScaledAbsorbance, slmeAbsorbed, materialInterpolatedAbsorbance,
    materialAbsorbanceFunction, interp1dTuple, absorbedByWavelength, solarPhotonFlux,
    simps, simpsPair]
  norm_num

lemma cex0_slmeJ0r : slmeJ0r (fun _ => 0) [300, 400, 500] [1, 1.5, 2, 2.2]
    (slmeScaledAbsorbance [0, 0, 0, 0] false) 2 50e-6 293.15 true = 0 := by
  simp [slmeJ0r, slmeScaledAbsorbance, slmeAbsorbed, materialInterpolatedAbsorbance,
    materialAbsorbanceFunction, interp1dTuple, absorbedByWavelength,
    simps, simpsPair]
  norm_num

lemma cex0_searchsorted :
    searchsorted (List.map (fun wl => wl * 1e-9) [300, 400, 500]) (bandgapWavelength 5) = 0 := by
  have h : bandgapWavelength 5 ≤ (300 : ℝ) * 1e-9 := by
    unfold bandgapWavelength h_e
    norm_num [hPlanck, eCharge, cLight]
  simp only [List.map_cons, List.map_nil, searchsorted, if_pos h]

lemma cex0_sqJ0 : sqJ0 [300, 400, 500] 293.15 5 1 = 0 := by
  unfold sqJ0 sqIntegrationBlackbody sqIntegrationWavelength
  rw [cex0_searchsorted]
  simp [simps_singleton]

lemma cex0_sqJsc : sqJsc [300, 400, 500] [1, 1, 1] 5 = 0 := by
  unfold sqJsc sqIntegrationSolarFlux sqIntegrationWavelength
  rw [cex0_searchsorted]
  simp [simps_singleton]

/-- Witness for the amended C2: a three-point spectrum of unit irradiance with an
all-zero absorbance spectrum (for `slme`) and a band gap beyond the spectrum's range
(for `calculate_SQ`); both loops settle immediately and both efficiencies are
non-negative. -/
theorem efficiency_nonneg_witness :
    0 < powerIn [300, 400, 500] [1, 1, 1] ∧
      0 ≤ slme (fun _ => 0) [300, 400, 500] [1, 1, 1] [1, 1.5, 2, 2.2] [0, 0, 0, 0]
          2 2 50e-6 293.15 false true ∧
      0 ≤ calculate_SQ [300, 400, 500] [1, 1, 1] 5 293.15 1 := by
  have hpow : 0 < powerIn [(300 : ℝ), 400, 500] [1, 1, 1] := by
    norm_num [powerIn, simps, simpsPair]
  have hstop1 : ∃ n : ℕ,
      diodePower
          (slmeJsc (fun _ => 0) [300, 400, 500] [1, 1, 1] [1, 1.5, 2, 2.2]
            (slmeScaledAbsorbance [0, 0, 0, 0] false) 2 50e-6 true)
          (slmeJ0r (fun _ => 0) [300, 400, 500] [1, 1.5, 2, 2.2]
              (slmeScaledAbsorbance [0, 0, 0, 0] false) 2 50e-6 293.15 true
            / slmeFr 293.15 2 2)
          293.15 (((n : ℝ) + 1) * voltageStep)
        ≤ diodePower
          (slmeJsc (fun _ => 0) [300, 400, 500] [1, 1, 1] [1, 1.5, 2, 2.2]
            (slmeScaledAbsorbance [0, 0, 0, 0] false) 2 50e-6 true)
          (slmeJ0r (fun _ => 0) [300, 400, 500] [1, 1.5, 2, 2.2]
              (slmeScaledAbsorbance [0, 0, 0, 0] false) 2 50e-6 293.15 true
            / slmeFr 293.15 2 2)
          293.15 ((n : ℝ) * voltageStep) := by
    refine ⟨0, ?_⟩
    rw [cex0_slmeJsc, cex0_slmeJ0r, slmeFr_self]
    norm_num [diodePower_zero]
  have hstop2 : ∃ n : ℕ,
      diodePower (sqJsc [300, 400, 500] [1, 1, 1] 5) (sqJ0 [300, 400, 500] 293.15 5 1)
          293.15 (((n : ℝ) + 1) * voltageStep)
        ≤ diodePower (sqJsc [300, 400, 500] [1, 1, 1] 5) (sqJ0 [300, 400, 500] 293.15 5 1)
          293.15 ((n : ℝ) * voltageStep) := by
    refine ⟨0, ?_⟩
    rw [cex0_sqJsc, cex0_sqJ0]
    norm_num [diodePower_zero]
  obtain ⟨h1, h2⟩ := efficiency_nonneg (fun _ => 0) [300, 400, 500] [1, 1, 1]
    [1, 1.5, 2, 2.2] [0, 0, 0, 0] 2 2 50e-6 293.15 5 1 false true hstop1 hstop2 hpow
  exact ⟨hpow, h1, h2⟩

lemma one_add_mul_exp_mono {x y : ℝ} (hx : 0 ≤ x) (hxy : x ≤ y) :
    (1 + x) * Real.exp x ≤ (1 + y) * Real.exp y := by
  rcases eq_or_lt_of_le hxy with h | h
  · subst h; exact le_refl _
  · exact (one_add_mul_exp_strict hx h).le

/-- `b^n ≤ exp n` for any base below `e`; used to turn exponential lower bounds into
rational arithmetic. -/
lemma pow_le_exp_nat (b : ℝ) (n : ℕ) (hb0 : 0 ≤ b) (hb : b ≤ Real.exp 1) :
    b ^ n ≤ Real.exp (n : ℝ) := by
  calc b ^ n ≤ Real.exp 1 ^ n := pow_le_pow_left₀ hb0 hb n
    _ = Real.exp ((n : ℝ) * 1) := (Real.exp_nat_mul 1 n).symm
    _ = Real.exp (n : ℝ) := by norm_num

lemma two_le_exp_one : (2 : ℝ) ≤ Real.exp 1 := by
  nlinarith [Real.exp_one_gt_d9]

lemma simps_three (x0 y0 x1 y1 x2 y2 : ℝ) :
    simps [y0, y1, y2] [x0, x1, x2] = simpsPair x0 y0 x1 y1 x2 y2 := by
  rw [show simps [y0, y1, y2] [x0, x1, x2]
      = simpsPair x0 y0 x1 y1 x2 y2 + simps [y2] [x2] from rfl,
    simps_singleton, add_zero]

lemma cexE_absorbance :
    materialInterpolatedAbsorbance (fun _ => 0) [1, 1.5, 2, 2.2] [1e9, 1e9, 1e9, 1e9] 2 true
      [300, 400, 500] = [1e9, 1e9, 1e9] := by
  have hmin : (563 : ℝ) < listMin (materialWavelengthNm [1, 1.5, 2, 2.2]) := by
    simp only [materialWavelengthNm, List.map_cons, List.map_nil, listMin, lt_min_iff]
    refine ⟨?_, ?_, ?_, ?_⟩ <;> norm_num [cLight, h_e, hPlanck, eCharge]
  have habs : ∀ wl : ℝ, wl ≤ 500 →
      materialAbsorbanceFunction (fun _ => 0) [1, 1.5, 2, 2.2] [1e9, 1e9, 1e9, 1e9] wl
        = 1e9 := by
    intro wl hwl
    unfold materialAbsorbanceFunction interp1dTuple
    rw [if_pos (lt_of_le_of_lt hwl (lt_trans (by norm_num) hmin))]
    simp
  have hgap : ∀ wl : ℝ, wl ≤ 500 → wl < 1e9 * (cLight * h_e / 2) := by
    intro wl hwl
    refine lt_of_le_of_lt hwl ?_
    norm_num [cLight, h_e, hPlanck, eCharge]
  simp only [materialInterpolatedAbsorbance, List.map_cons, List.map_nil]
  rw [if_pos (Or.inl (hgap 300 (by norm_num))), if_pos (Or.inl (hgap 400 (by norm_num))),
    if_pos (Or.inl (hgap 500 (by norm_num))),
    habs 300 (by norm_num), habs 400 (by norm_num), habs 500 (by norm_num)]

lemma cexE_absorbed :
    slmeAbsorbed (fun _ => 0) [1, 1.5, 2, 2.2] [1e9, 1e9, 1e9, 1e9] 2 50e-6 true
        [300, 400, 500]
      = [1 - Real.exp (-(100000 : ℝ)), 1 - Real.exp (-(100000 : ℝ)),
          1 - Real.exp (-(100000 : ℝ))] := by
  unfold slmeAbsorbed
  rw [cexE_absorbance]
  unfold absorbedByWavelength
  simp only [List.map_cons, List.map_nil]
  norm_num

lemma cexE_Jsc :
    slmeJsc (fun _ => 0) [300, 400, 500] [1, 1, 1]
        [1, 1.5, 2, 2.2] [1e9, 1e9, 1e9, 1e9] 2 50e-6 true
      = eCharge * (8e-5 / (hPlanck * cLight)) * (1 - Real.exp (-(100000 : ℝ))) := by
  unfold slmeJsc
  rw [cexE_absorbed]
  unfold solarPhotonFlux
  simp only [List.map_cons, List.map_nil, List.zipWith_cons_cons, List.zipWith_nil_right,
    List.zipWith_nil_left]
  rw [simps_three]
  unfold simpsPair
  have hh : hPlanck ≠ 0 := by norm_num [hPlanck]
  have hcc : cLight ≠ 0 := by norm_num [cLight]
  field_simp
  ring

lemma cexE_J0r :
    slmeJ0r (fun _ => 0) [300, 400, 500] [1, 1.5, 2, 2.2] [1e9, 1e9, 1e9, 1e9] 2 50e-6
        293.15 true
      = eCharge * Real.pi * (2e-7 / 6
          * (blackbodyPhotonFlux 293.15 (300 * 1e-9) * (1 - Real.exp (-(100000 : ℝ)))
            + 4 * (blackbodyPhotonFlux 293.15 (400 * 1e-9) * (1 - Real.exp (-(100000 : ℝ))))
            + blackbodyPhotonFlux 293.15 (500 * 1e-9)
              * (1 - Real.exp (-(100000 : ℝ))))) := by
  unfold slmeJ0r
  rw [cexE_absorbed]
  simp only [List.map_cons, List.map_nil, List.zipWith_cons_cons, List.zipWith_nil_right,
    List.zipWith_nil_left]
  rw [simps_three]
  unfold simpsPair
  norm_num
  exact Or.inl (by ring)

/-- Generic upper bound on the blackbody photon flux from a lower bound `98` on the
Planck exponent. -/
lemma bpf_upper (temperature l B : ℝ) (hl : l ≠ 0)
    (hx : 98 ≤ hPlanck * cLight / (l * kBoltz * temperature))
    (hcoef : 2 * cLight / l ^ 4 ≤ B) (hcoef0 : 0 ≤ 2 * cLight / l ^ 4) :
    blackbodyPhotonFlux temperature l ≤ B * Real.exp (-(97 : ℝ)) := by
  rw [blackbodyPhotonFlux_eq _ _ hl]
  have hE : Real.exp 98 ≤ Real.exp (hPlanck * cLight / (l * kBoltz * temperature)) :=
    Real.exp_le_exp.mpr hx
  have h97 : (1 : ℝ) ≤ Real.exp 97 := Real.one_le_exp (by norm_num)
  have hsplit : Real.exp (98 : ℝ) = Real.exp 1 * Real.exp 97 := by
    rw [← Real.exp_add]; norm_num
  have hE97 : Real.exp 97
      ≤ Real.exp (hPlanck * cLight / (l * kBoltz * temperature)) - 1 := by
    nlinarith [two_le_exp_one]
  have hpos : (0 : ℝ)
      < Real.exp (hPlanck * cLight / (l * kBoltz * temperature)) - 1 := by
    nlinarith [Real.exp_pos (97 : ℝ)]
  have hinv : 1 / (Real.exp (hPlanck * cLight / (l * kBoltz * temperature)) - 1)
      ≤ Real.exp (-(97 : ℝ)) := by
    rw [Real.exp_neg]
    calc 1 / (Real.exp (hPlanck * cLight / (l * kBoltz * temperature)) - 1)
        ≤ 1 / Real.exp 97 := one_div_le_one_div_of_le (Real.exp_pos 97) hE97
      _ = (Real.exp 97)⁻¹ := one_div _
  exact mul_le_mul hcoef hinv (by positivity) (le_trans hcoef0 hcoef)

lemma bpf_pos (temperature l : ℝ) (hl : 0 < l) (hT : 0 < temperature) :
    0 < blackbodyPhotonFlux temperature l := by
  rw [blackbodyPhotonFlux_eq _ _ (ne_of_gt hl)]
  have hhc : (0 : ℝ) < hPlanck * cLight := by norm_num [hPlanck, cLight]
  have hk : (0 : ℝ) < kBoltz := by norm_num [kBoltz]
  have hcl : (0 : ℝ) < cLight := by norm_num [cLight]
  have hx : 0 < hPlanck * cLight / (l * kBoltz * temperature) := by positivity
  have h1 : 1 < Real.exp (hPlanck * cLight / (l * kBoltz * temperature)) :=
    Real.one_lt_exp_iff.mpr hx
  have hpos : (0 : ℝ)
      < Real.exp (hPlanck * cLight / (l * kBoltz * temperature)) - 1 := by linarith
  have hc : (0 : ℝ) < 2 * cLight / l ^ 4 := by positivity
  positivity

lemma bpf_lower_500 :
    9e33 * Real.exp (-(99 : ℝ)) ≤ blackbodyPhotonFlux 293.15 (500 * 1e-9) := by
  rw [blackbodyPhotonFlux_eq _ _ (by norm_num)]
  have hxup : hPlanck * cLight / ((500 * 1e-9) * kBoltz * 293.15) ≤ 99 := by
    norm_num [hPlanck, cLight, kBoltz]
  have hxlow : (0 : ℝ) < hPlanck * cLight / ((500 * 1e-9) * kBoltz * 293.15) := by
    norm_num [hPlanck, cLight, kBoltz]
  have h1 : 1 < Real.exp (hPlanck * cLight / ((500 * 1e-9) * kBoltz * 293.15)) :=
    Real.one_lt_exp_iff.mpr hxlow
  have hpos : (0 : ℝ)
      < Real.exp (hPlanck * cLight / ((500 * 1e-9) * kBoltz * 293.15)) - 1 := by linarith
  have hinv : Real.exp (-(99 : ℝ))
      ≤ 1 / (Real.exp (hPlanck * cLight / ((500 * 1e-9) * kBoltz * 293.15)) - 1) := by
    rw [Real.exp_neg]
    have h2 : Real.exp (hPlanck * cLight / ((500 * 1e-9) * kBoltz * 293.15)) - 1
        ≤ Real.exp 99 := by
      have := Real.exp_le_exp.mpr hxup
      linarith
    calc (Real.exp (99 : ℝ))⁻¹ = 1 / Real.exp 99 := (one_div _).symm
      _ ≤ _ := one_div_le_one_div_of_le hpos h2
  have hcoef : (9e33 : ℝ) ≤ 2 * cLight / (500 * 1e-9) ^ 4 := by norm_num [cLight]
  have hcoef0 : (0 : ℝ) ≤ 2 * cLight / (500 * 1e-9) ^ 4 := by norm_num [cLight]
  exact mul_le_mul hcoef hinv (Real.exp_pos _).le hcoef0

lemma cex_A0_bounds :
    1 / 2 ≤ 1 - Real.exp (-(100000 : ℝ)) ∧ 1 - Real.exp (-(100000 : ℝ)) ≤ 1 := by
  have h1 : Real.exp (-(100000 : ℝ)) ≤ Real.exp (-1 : ℝ) :=
    Real.exp_le_exp.mpr (by norm_num)
  have h2 : Real.exp (-1 : ℝ) < 0.3678794412 := Real.exp_neg_one_lt_d9
  constructor
  · nlinarith
  · nlinarith [Real.exp_pos (-(100000 : ℝ))]

lemma cex_Jsc_bounds :
    (32 : ℝ)
        ≤ slmeJsc (fun _ => 0) [300, 400, 500] [1, 1, 1] [1, 1.5, 2, 2.2]
            [1e9, 1e9, 1e9, 1e9] 2 50e-6 true ∧
      slmeJsc (fun _ => 0) [300, 400, 500] [1, 1, 1]
          [1, 1.5, 2, 2.2] [1e9, 1e9, 1e9, 1e9] 2 50e-6 true ≤ 65 := by
  rw [cexE_Jsc]
  obtain ⟨hA1, hA2⟩ := cex_A0_bounds
  have hA0 : (0 : ℝ) ≤ 1 - Real.exp (-(100000 : ℝ)) := by linarith
  have hC1 : (64 : ℝ) ≤ eCharge * (8e-5 / (hPlanck * cLight)) := by
    norm_num [eCharge, hPlanck, cLight]
  have hC2 : eCharge * (8e-5 / (hPlanck * cLight)) ≤ 65 := by
    norm_num [eCharge, hPlanck, cLight]
  constructor
  · calc (32 : ℝ) = 64 * (1 / 2) := by norm_num
      _ ≤ eCharge * (8e-5 / (hPlanck * cLight)) * (1 - Real.exp (-(100000 : ℝ))) :=
        mul_le_mul hC1 hA1 (by norm_num) (by linarith)
  · calc eCharge * (8e-5 / (hPlanck * cLight)) * (1 - Real.exp (-(100000 : ℝ)))
        ≤ 65 * 1 := mul_le_mul hC2 hA2 hA0 (by norm_num)
      _ = 65 := mul_one 65

lemma cex_J0r_bounds :
    Real.exp (-(99 : ℝ))
        ≤ slmeJ0r (fun _ => 0) [300, 400, 500] [1, 1.5, 2, 2.2] [1e9, 1e9, 1e9, 1e9] 2
            50e-6 293.15 true ∧
      slmeJ0r (fun _ => 0) [300, 400, 500] [1, 1.5, 2, 2.2] [1e9, 1e9, 1e9, 1e9] 2 50e-6
          293.15 true ≤ 1e10 * Real.exp (-(97 : ℝ)) := by
  rw [cexE_J0r]
  obtain ⟨hA1, hA2⟩ := cex_A0_bounds
  have hA0 : (0 : ℝ) ≤ 1 - Real.exp (-(100000 : ℝ)) := by linarith
  have hb0u := bpf_upper 293.15 (300 * 1e-9) 7.5e34 (by norm_num)
    (by norm_num [hPlanck, cLight, kBoltz]) (by norm_num [cLight]) (by norm_num [cLight])
  have hb1u := bpf_upper 293.15 (400 * 1e-9) 7.5e34 (by norm_num)
    (by norm_num [hPlanck, cLight, kBoltz]) (by norm_num [cLight]) (by norm_num [cLight])
  have hb2u := bpf_upper 293.15 (500 * 1e-9) 7.5e34 (by norm_num)
    (by norm_num [hPlanck, cLight, kBoltz]) (by norm_num [cLight]) (by norm_num [cLight])
  have hb0p := bpf_pos 293.15 (300 * 1e-9) (by norm_num) (by norm_num)
  have hb1p := bpf_pos 293.15 (400 * 1e-9) (by norm_num) (by norm_num)
  have hb2p := bpf_pos 293.15 (500 * 1e-9) (by norm_num) (by norm_num)
  have hb2l := bpf_lower_500
  have hech : (0 : ℝ) < eCharge := by norm_num [eCharge]
  set A0 := 1 - Real.exp (-(100000 : ℝ)) with hA0def
  set b0 := blackbodyPhotonFlux 293.15 (300 * 1e-9) with hb0def
  set b1 := blackbodyPhotonFlux 293.15 (400 * 1e-9) with hb1def
  set b2 := blackbodyPhotonFlux 293.15 (500 * 1e-9) with hb2def
  set S := b0 * A0 + 4 * (b1 * A0) + b2 * A0 with hSdef
  clear_value A0 b0 b1 b2
  have hS_low : 9e33 * Real.exp (-(99 : ℝ)) * (1 / 2) ≤ S := by
    have t0 : (0 : ℝ) ≤ b0 * A0 := mul_nonneg hb0p.le hA0
    have t1 : (0 : ℝ) ≤ 4 * (b1 * A0) := by
      have := mul_nonneg hb1p.le hA0
      linarith
    have t2 : 9e33 * Real.exp (-(99 : ℝ)) * (1 / 2) ≤ b2 * A0 :=
      mul_le_mul hb2l hA1 (by norm_num) hb2p.le
    rw [hSdef]
    linarith
  have hS_0 : (0 : ℝ) ≤ S :=
    le_trans (by positivity) hS_low
  have hS_up : S ≤ 6 * (7.5e34 * Real.exp (-(97 : ℝ))) := by
    have u0 : b0 * A0 ≤ 7.5e34 * Real.exp (-(97 : ℝ)) := by
      calc b0 * A0 ≤ b0 * 1 := mul_le_mul_of_nonneg_left hA2 hb0p.le
        _ = b0 := mul_one b0
        _ ≤ 7.5e34 * Real.exp (-(97 : ℝ)) := hb0u
    have u1 : b1 * A0 ≤ 7.5e34 * Real.exp (-(97 : ℝ)) := by
      calc b1 * A0 ≤ b1 * 1 := mul_le_mul_of_nonneg_left hA2 hb1p.le
        _ = b1 := mul_one b1
        _ ≤ 7.5e34 * Real.exp (-(97 : ℝ)) := hb1u
    have u2 : b2 * A0 ≤ 7.5e34 * Real.exp (-(97 : ℝ)) := by
      calc b2 * A0 ≤ b2 * 1 := mul_le_mul_of_nonneg_left hA2 hb2p.le
        _ = b2 := mul_one b2
        _ ≤ 7.5e34 * Real.exp (-(97 : ℝ)) := hb2u
    rw [hSdef]
    linarith
  constructor
  · calc Real.exp (-(99 : ℝ)) = 1 * Real.exp (-(99 : ℝ)) := (one_mul _).symm
      _ ≤ (eCharge * 3 * (2e-7 / 6) * (9e33 * (1 / 2))) * Real.exp (-(99 : ℝ)) := by
          apply mul_le_mul_of_nonneg_right _ (Real.exp_pos _).le
          norm_num [eCharge]
      _ = eCharge * 3 * (2e-7 / 6 * (9e33 * Real.exp (-(99 : ℝ)) * (1 / 2))) := by ring
      _ ≤ eCharge * 3 * (2e-7 / 6 * S) := by
          apply mul_le_mul_of_nonneg_left _ (by norm_num [eCharge])
          exact mul_le_mul_of_nonneg_left hS_low (by norm_num)
      _ ≤ eCharge * Real.pi * (2e-7 / 6 * S) := by
          have h3Y : 3 * (2e-7 / 6 * S) ≤ Real.pi * (2e-7 / 6 * S) :=
            mul_le_mul_of_nonneg_right Real.pi_gt_three.le
              (mul_nonneg (by norm_num) hS_0)
          have hstep := mul_le_mul_of_nonneg_left h3Y hech.le
          calc eCharge * 3 * (2e-7 / 6 * S) = eCharge * (3 * (2e-7 / 6 * S)) := by ring
            _ ≤ eCharge * (Real.pi * (2e-7 / 6 * S)) := hstep
            _ = eCharge * Real.pi * (2e-7 / 6 * S) := by ring
  · calc eCharge * Real.pi * (2e-7 / 6 * S)
        = eCharge * (Real.pi * (2e-7 / 6 * S)) := by ring
      _ ≤ eCharge * (4 * (2e-7 / 6 * S)) := by
          apply mul_le_mul_of_nonneg_left _ hech.le
          exact mul_le_mul_of_nonneg_right Real.pi_le_four
            (mul_nonneg (by norm_num) hS_0)
      _ ≤ eCharge * (4 * (2e-7 / 6 * (6 * (7.5e34 * Real.exp (-(97 : ℝ)))))) := by
          apply mul_le_mul_of_nonneg_left _ hech.le
          apply mul_le_mul_of_nonneg_left _ (by norm_num)
          exact mul_le_mul_of_nonneg_left hS_up (by norm_num)
      _ = (eCharge * 4 * (2e-7 / 6) * 6 * 7.5e34) * Real.exp (-(97 : ℝ)) := by ring
      _ ≤ 1e10 * Real.exp (-(97 : ℝ)) :=
          mul_le_mul_of_nonneg_right (by norm_num [eCharge]) (Real.exp_pos _).le

/-- With a fundamental (indirect) gap exceeding the direct allowed gap by
`2000 * k_e * T`, the radiative fraction of `slme` evaluates to `exp 2000`: the code
never validates the band-gap pair, so `fr` is unbounded in it. -/
lemma cex_fr : slmeFr 293.15 2 (2 + 2000 * (k_e * 293.15)) = Real.exp 2000 := by
  unfold slmeFr
  congr 1
  have hke : k_e * 293.15 ≠ 0 := by norm_num [k_e, kBoltz, eCharge]
  rw [div_eq_iff hke]
  ring

/-- Bounds on the saturation current `J_0 = J_0_r / fr` of the counterexample, with
`fr = exp 2000`. -/
lemma cex_J0_bounds :
    Real.exp (-(2099 : ℝ))
        ≤ slmeJ0r (fun _ => 0) [300, 400, 500] [1, 1.5, 2, 2.2] [1e9, 1e9, 1e9, 1e9] 2
            50e-6 293.15 true / Real.exp 2000 ∧
      slmeJ0r (fun _ => 0) [300, 400, 500] [1, 1.5, 2, 2.2] [1e9, 1e9, 1e9, 1e9] 2 50e-6
          293.15 true / Real.exp 2000 ≤ 1e10 * Real.exp (-(2097 : ℝ)) := by
  obtain ⟨h1, h2⟩ := cex_J0r_bounds
  constructor
  · rw [le_div_iff₀ (Real.exp_pos _)]
    calc Real.exp (-(2099 : ℝ)) * Real.exp 2000 = Real.exp (-(99 : ℝ)) := by
          rw [← Real.exp_add]; norm_num
      _ ≤ _ := h1
  · rw [div_le_iff₀ (Real.exp_pos _)]
    calc slmeJ0r (fun _ => 0) [300, 400, 500] [1, 1.5, 2, 2.2] [1e9, 1e9, 1e9, 1e9] 2
          50e-6 293.15 true
        ≤ 1e10 * Real.exp (-(97 : ℝ)) := h2
      _ = 1e10 * Real.exp (-(2097 : ℝ)) * Real.exp 2000 := by
          rw [mul_assoc, ← Real.exp_add]; norm_num

set_option maxHeartbeats 2000000 in
/-- C2 counterexample: with a (spec-modelled) three-point stand-in for the reference
spectrum — unit irradiance at wavelengths `[300, 400, 500]` nm, magnitudes of the
bundled dataset's order — an absorbance of `1e9 m⁻¹` on energies `[1, 1.5, 2, 2.2]` eV,
the default thickness `50e-6 m` and temperature `293.15 K`, and a band-gap pair whose
fundamental gap lies `2000 * k_e * T` (about 50.5 eV) above the direct allowed gap of
`2 eV`, the `slme` efficiency exceeds `1`: the code never validates the band-gap pair,
so the radiative fraction becomes `fr = exp 2000`, the saturation current
`J_0 = J_0_r / fr` collapses, the maximization loop settles beyond `V = 37` V, and
`max_power > power_in`. -/
theorem slme_efficiency_exceeds_one :
    1 < slme (fun _ => 0) [300, 400, 500] [1, 1, 1]
        [1, 1.5, 2, 2.2] [1e9, 1e9, 1e9, 1e9] 2 (2 + 2000 * (k_e * 293.15)) 50e-6 293.15
        false true := by
  have hscale : slmeScaledAbsorbance [(1e9 : ℝ), 1e9, 1e9, 1e9] false
      = [(1e9 : ℝ), 1e9, 1e9, 1e9] := by simp [slmeScaledAbsorbance]
  unfold slme
  rw [hscale, cex_fr]
  obtain ⟨hJsc_low, hJsc_up⟩ := cex_Jsc_bounds
  obtain ⟨hJ0_low, hJ0_up⟩ := cex_J0_bounds
  set Jsc := slmeJsc (fun _ => 0) [300, 400, 500] [1, 1, 1] [1, 1.5, 2, 2.2]
    [(1e9 : ℝ), 1e9, 1e9, 1e9] 2 50e-6 true with hJscdef
  set J0 := slmeJ0r (fun _ => 0) [300, 400, 500] [1, 1.5, 2, 2.2]
    [(1e9 : ℝ), 1e9, 1e9, 1e9] 2 50e-6 293.15 true / Real.exp 2000 with hJ0def
  have hJ0_pos : 0 < J0 := lt_of_lt_of_le (Real.exp_pos _) hJ0_low
  have hJsc_pos : 0 < Jsc := lt_of_lt_of_le (by norm_num) hJsc_low
  clear_value Jsc J0
  have hpow : powerIn [(300 : ℝ), 400, 500] [1, 1, 1] = 200 := by
    unfold powerIn
    rw [simps_three]
    unfold simpsPair
    norm_num
  have hr_low : (39.5 : ℝ) ≤ diodeRate 293.15 := by
    norm_num [diodeRate, eCharge, kBoltz]
  have hr_up : diodeRate 293.15 ≤ 39.6 := by
    norm_num [diodeRate, eCharge, kBoltz]
  have hexp8 : (1506 : ℝ) ≤ Real.exp 8 := by
    have h := pow_le_exp_nat (27 / 10) 8 (by norm_num) (by nlinarith [Real.exp_one_gt_d9])
    norm_num at h
    nlinarith [h]
  have hexp5 : (66 : ℝ) ≤ Real.exp 5 := by
    have h := pow_le_exp_nat (27 / 10) 5 (by norm_num) (by nlinarith [Real.exp_one_gt_d9])
    norm_num at h
    nlinarith [h]
  have hexp30 : (1073741824 : ℝ) ≤ Real.exp 30 := by
    have h := pow_le_exp_nat 2 30 (by norm_num) two_le_exp_one
    norm_num at h
    nlinarith [h]
  have hmonoB : (1 + diodeRate 293.15 * 38) * Real.exp (diodeRate 293.15 * 38)
      ≤ 1 + Jsc / J0 := by
    have h38a : diodeRate 293.15 * 38 ≤ 1505 := by nlinarith
    have h38b : (0 : ℝ) ≤ diodeRate 293.15 * 38 := by nlinarith
    have step4 : Real.exp (1513 : ℝ) ≤ Jsc / J0 := by
      rw [le_div_iff₀ hJ0_pos]
      have h584 : (1073741824 : ℝ) ≤ Real.exp 584 := by
        have h30 := Real.exp_le_exp.mpr (by norm_num : (30 : ℝ) ≤ 584)
        linarith
      calc Real.exp (1513 : ℝ) * J0
          ≤ Real.exp (1513 : ℝ) * (1e10 * Real.exp (-(2097 : ℝ))) :=
            mul_le_mul_of_nonneg_left hJ0_up (Real.exp_pos _).le
        _ = 1e10 * (Real.exp (1513 : ℝ) * Real.exp (-(2097 : ℝ))) := by ring
        _ = 1e10 * Real.exp (-(584 : ℝ)) := by rw [← Real.exp_add]; norm_num
        _ ≤ (32 * Real.exp 584) * Real.exp (-(584 : ℝ)) :=
            mul_le_mul_of_nonneg_right (by nlinarith) (Real.exp_pos _).le
        _ = 32 * (Real.exp 584 * Real.exp (-(584 : ℝ))) := by ring
        _ = 32 := by rw [← Real.exp_add]; norm_num
        _ ≤ Jsc := hJsc_low
    calc (1 + diodeRate 293.15 * 38) * Real.exp (diodeRate 293.15 * 38)
        ≤ (1 + 1505) * Real.exp 1505 := one_add_mul_exp_mono h38b h38a
      _ ≤ Real.exp 8 * Real.exp 1505 :=
          mul_le_mul_of_nonneg_right (by linarith) (Real.exp_pos _).le
      _ = Real.exp 1513 := by rw [← Real.exp_add]; norm_num
      _ ≤ Jsc / J0 := step4
      _ ≤ 1 + Jsc / J0 := by linarith
  have hantiB : 1 + Jsc / J0
      ≤ (1 + diodeRate 293.15 * 56) * Real.exp (diodeRate 293.15 * 56) := by
    have hd1 : Jsc / J0 ≤ 65 * Real.exp 2099 := by
      rw [div_le_iff₀ hJ0_pos]
      calc Jsc ≤ 65 := hJsc_up
        _ = 65 * Real.exp 2099 * Real.exp (-(2099 : ℝ)) := by
            rw [mul_assoc, ← Real.exp_add]; norm_num
        _ ≤ 65 * Real.exp 2099 * J0 :=
            mul_le_mul_of_nonneg_left hJ0_low (by positivity)
    have hd2 : (1 : ℝ) + 65 * Real.exp 2099 ≤ 66 * Real.exp 2099 := by
      have := Real.one_le_exp (by norm_num : (0 : ℝ) ≤ 2099)
      linarith
    have hd3 : (66 : ℝ) * Real.exp 2099 ≤ Real.exp 5 * Real.exp 2099 :=
      mul_le_mul_of_nonneg_right hexp5 (Real.exp_pos _).le
    have hd4 : Real.exp (5 : ℝ) * Real.exp (2099 : ℝ) = Real.exp 2104 := by
      rw [← Real.exp_add]; norm_num
    have hd5 : Real.exp (2104 : ℝ) ≤ Real.exp (diodeRate 293.15 * 56) := by
      apply Real.exp_le_exp.mpr
      nlinarith
    have hd6 : Real.exp (diodeRate 293.15 * 56)
        ≤ (1 + diodeRate 293.15 * 56) * Real.exp (diodeRate 293.15 * 56) := by
      have h1 : (1 : ℝ) ≤ 1 + diodeRate 293.15 * 56 := by nlinarith
      nlinarith [Real.exp_pos (diodeRate 293.15 * 56)]
    linarith
  have hmono := diode_strictMonoOn Jsc J0 293.15 38 (by norm_num) hJ0_pos (by norm_num)
    hmonoB
  have hanti := diode_strictAntiOn Jsc J0 293.15 56 (by norm_num) hJ0_pos (by norm_num)
    hantiB
  set P := diodePower Jsc J0 293.15 with hPdef
  have hvs : voltageStep = 1 / 1000 := by norm_num [voltageStep]
  have hc56 : ((56000 : ℕ) : ℝ) * voltageStep = 56 := by
    push_cast; rw [hvs]; norm_num
  have hc56' : (((56000 : ℕ) : ℝ) + 1) * voltageStep = 56.001 := by
    push_cast; rw [hvs]; norm_num
  have hne : ∃ n : ℕ, P (((n : ℝ) + 1) * voltageStep) ≤ P ((n : ℝ) * voltageStep) := by
    refine ⟨56000, ?_⟩
    rw [hc56, hc56']
    exact le_of_lt (hanti (Set.mem_Ici.mpr (by norm_num)) (Set.mem_Ici.mpr (by norm_num))
      (by norm_num))
  obtain ⟨hstopmem, hlt⟩ := stopIndex_spec P hne
  have hix : 38000 ≤ stopIndex P := by
    by_contra hcon
    push_neg at hcon
    have hcast : ((stopIndex P : ℝ) + 1) ≤ 38000 := by exact_mod_cast hcon
    have hm1 : ((stopIndex P : ℝ) + 1) * voltageStep ≤ 38 := by
      rw [hvs]; linarith [hcast]
    have h0le : (0 : ℝ) ≤ (stopIndex P : ℝ) * voltageStep := by positivity
    have hlt2 : (stopIndex P : ℝ) * voltageStep
        < ((stopIndex P : ℝ) + 1) * voltageStep := by
      nlinarith [voltageStep_pos]
    have := hmono (Set.mem_Icc.mpr ⟨h0le, by linarith⟩)
      (Set.mem_Icc.mpr ⟨by positivity, hm1⟩) hlt2
    exact absurd hstopmem (not_le.mpr this)
  have h37lt : 37000 < stopIndex P := lt_of_lt_of_le (by norm_num) hix
  have hchain := power_chain_lt P (stopIndex P) hlt 37000 h37lt
  have hc37 : ((37000 : ℕ) : ℝ) * voltageStep = 37 := by
    push_cast; rw [hvs]; norm_num
  have hP37 : (592 : ℝ) ≤ P (((37000 : ℕ) : ℝ) * voltageStep) := by
    rw [hc37, hPdef, diodePower_eq_rate]
    have hr37 : diodeRate 293.15 * 37 ≤ 1466 := by nlinarith
    have hE : Real.exp (diodeRate 293.15 * 37) ≤ Real.exp 1466 := Real.exp_le_exp.mpr hr37
    have hsmall : J0 * (Real.exp (diodeRate 293.15 * 37) - 1) ≤ 16 := by
      have h1 : J0 * (Real.exp (diodeRate 293.15 * 37) - 1) ≤ J0 * Real.exp 1466 := by
        apply mul_le_mul_of_nonneg_left _ hJ0_pos.le
        linarith
      have h2 : J0 * Real.exp 1466 ≤ (1e10 * Real.exp (-(2097 : ℝ))) * Real.exp 1466 :=
        mul_le_mul_of_nonneg_right hJ0_up (Real.exp_pos _).le
      have h3 : (1e10 : ℝ) * Real.exp (-(2097 : ℝ)) * Real.exp 1466
          = 1e10 * Real.exp (-(631 : ℝ)) := by
        rw [mul_assoc, ← Real.exp_add]; norm_num
      have h4 : (1e10 : ℝ) * Real.exp (-(631 : ℝ)) ≤ 16 := by
        have h631 : (1073741824 : ℝ) ≤ Real.exp 631 := by
          have h30 := Real.exp_le_exp.mpr (by norm_num : (30 : ℝ) ≤ 631)
          linarith
        calc (1e10 : ℝ) * Real.exp (-(631 : ℝ))
            ≤ (16 * Real.exp 631) * Real.exp (-(631 : ℝ)) :=
              mul_le_mul_of_nonneg_right (by nlinarith) (Real.exp_pos _).le
          _ = 16 * (Real.exp 631 * Real.exp (-(631 : ℝ))) := by ring
          _ = 16 := by rw [← Real.exp_add]; norm_num
      calc J0 * (Real.exp (diodeRate 293.15 * 37) - 1) ≤ J0 * Real.exp 1466 := h1
        _ ≤ (1e10 * Real.exp (-(2097 : ℝ))) * Real.exp 1466 := h2
        _ = 1e10 * Real.exp (-(631 : ℝ)) := h3
        _ ≤ 16 := h4
    have hcur : (16 : ℝ)
        ≤ Jsc - J0 * (Real.exp (diodeRate 293.15 * 37) - 1) := by linarith
    calc (592 : ℝ) = 16 * 37 := by norm_num
      _ ≤ (Jsc - J0 * (Real.exp (diodeRate 293.15 * 37) - 1)) * 37 :=
          mul_le_mul_of_nonneg_right hcur (by norm_num)
  have hfin : (200 : ℝ) < maxPowerOf P := by
    unfold maxPowerOf
    calc (200 : ℝ) < 592 := by norm_num
      _ ≤ P (((37000 : ℕ) : ℝ) * voltageStep) := hP37
      _ < P ((stopIndex P : ℝ) * voltageStep) := hchain
  rw [hpow]
  exact (one_lt_div (by positivity)).mpr hfin
